import Mathlib

/-!
Verification of the tracking/analysis core of the AEye-hub sports-video
application: the `ByteTracker` association engine, the kinematics and
movement-event analysis, the shot detector, and the aggregation code.

All JavaScript numbers are modelled as exact rationals (`ℚ`).  Where the
source can produce the IEEE special values `Infinity`/`-Infinity`/`NaN`
(division by a zero time delta, `Math.sqrt`, `Math.atan2`), a dedicated
carrier `JSNum` with explicit non-finite constructors is used; float
rounding itself is outside the scope of this exact embedding.
-/

namespace AEye

/-! ## ByteTracker (src/lib/supabase.ts, `ByteTracker` class)

Track lifecycle states, the `Track` record (the source uses the same
interface both for live tracks and for incoming detections, so detections
are `Track` values here as well), tracker options with the constructor's
`options.x || default` semantics, and the `update` pipeline. -/

inductive TrackState where
  | tentative
  | confirmed
  | deleted
deriving DecidableEq

/-- The `Track` interface of the source.  `bbox` is `(x, y, width, height)`.
The source's unused `id` field (distinct from `track_id`) is carried along
unchanged, as in the source. -/
structure Track where
  id : ℚ
  cls : String
  bbox : ℚ × ℚ × ℚ × ℚ
  confidence : ℚ
  track_id : ℕ
  age : ℕ
  hits : ℕ
  time_since_update : ℕ
  state : TrackState
deriving DecidableEq

structure TrackOptions where
  track_thresh : ℚ
  track_buffer : ℕ
  match_thresh : ℚ
  min_box_area : ℚ
  mot20 : Bool
deriving DecidableEq

/-- The `ByteTracker` constructor: each option is filled with
`options.x || default`, so a missing option *or a falsy (zero) one*
falls back to the default. -/
def mkTrackOptions (t : Option ℚ) (b : Option ℕ) (m : Option ℚ)
    (a : Option ℚ) (mo : Option Bool) : TrackOptions :=
  { track_thresh := match t with
      | some q => if q = 0 then 0.5 else q
      | none => 0.5
    track_buffer := match b with
      | some n => if n = 0 then 30 else n
      | none => 30
    match_thresh := match m with
      | some q => if q = 0 then 0.8 else q
      | none => 0.8
    min_box_area := match a with
      | some q => if q = 0 then 10 else q
      | none => 10
    mot20 := match mo with
      | some v => v || false
      | none => false }

/-- Options of `new ByteTracker({})`. -/
def defaultOptions : TrackOptions := mkTrackOptions none none none none none

/-- `ByteTracker.iou`: intersection-over-union of two `(x, y, w, h)` boxes,
`0.0` when the corner-ordered intersection is empty, otherwise
intersection area over union area. -/
def iou (box1 box2 : ℚ × ℚ × ℚ × ℚ) : ℚ :=
  let x1 := box1.1; let y1 := box1.2.1; let w1 := box1.2.2.1; let h1 := box1.2.2.2
  let x2 := box2.1; let y2 := box2.2.1; let w2 := box2.2.2.1; let h2 := box2.2.2.2
  let box1_x1 := x1; let box1_y1 := y1; let box1_x2 := x1 + w1; let box1_y2 := y1 + h1
  let box2_x1 := x2; let box2_y1 := y2; let box2_x2 := x2 + w2; let box2_y2 := y2 + h2
  let x_left := max box1_x1 box2_x1
  let y_top := max box1_y1 box2_y1
  let x_right := min box1_x2 box2_x2
  let y_bottom := min box1_y2 box2_y2
  if x_right < x_left ∨ y_bottom < y_top then 0
  else
    let intersection_area := (x_right - x_left) * (y_bottom - y_top)
    let box1_area := (box1_x2 - box1_x1) * (box1_y2 - box1_y1)
    let box2_area := (box2_x2 - box2_x1) * (box2_y2 - box2_y1)
    intersection_area / (box1_area + box2_area - intersection_area)

structure MatchResult where
  /-- The source's `matches` field (`matches` is a Lean keyword). -/
  matchPairs : List (ℕ × ℕ)
  unmatchedDetections : List ℕ
  unmatchedTracks : List ℕ
deriving DecidableEq

/-- Inner loop of `ByteTracker.matchDetectionsToTracks`: scan all track
indices, skipping already-matched ones, and keep the best IoU; `bestIou`
starts at `match_thresh` and the `iou >= bestIou` comparison is inclusive,
so ties move to the later track index. -/
def findBestTrack (detBox : ℚ × ℚ × ℚ × ℚ) (tracks : List Track)
    (matchedTracks : List ℕ) (thresh : ℚ) : Option ℕ × ℚ :=
  tracks.enum.foldl
    (fun acc p =>
      if p.1 ∈ matchedTracks then acc
      else if acc.2 ≤ iou detBox p.2.bbox then (some p.1, iou detBox p.2.bbox)
      else acc)
    (none, thresh)

/-- One detection of the greedy matching loop: `acc` is the pair of the
match list built so far and the list of already-claimed track indices. -/
def greedyStep (tracks : List Track) (thresh : ℚ)
    (acc : List (ℕ × ℕ) × List ℕ) (p : ℕ × Track) : List (ℕ × ℕ) × List ℕ :=
  match (findBestTrack p.2.bbox tracks acc.2 thresh).1 with
  | some t => (acc.1 ++ [(p.1, t)], acc.2 ++ [t])
  | none => acc

/-- `ByteTracker.matchDetectionsToTracks`.  Matches are `(detectionIdx,
trackIdx)` pairs produced greedily in detection order; unmatched index
lists are ascending, as in the source's final collection loops. -/
def matchDetectionsToTracks (tracks detections : List Track) (thresh : ℚ) :
    MatchResult :=
  if tracks.isEmpty then
    { matchPairs := [], unmatchedDetections := List.range detections.length,
      unmatchedTracks := [] }
  else if detections.isEmpty then
    { matchPairs := [], unmatchedDetections := [],
      unmatchedTracks := List.range tracks.length }
  else
    let mt := detections.enum.foldl (greedyStep tracks thresh) ([], [])
    { matchPairs := mt.1
      unmatchedDetections :=
        (List.range detections.length).filter
          (fun d => !(mt.1.map Prod.fst).contains d)
      unmatchedTracks :=
        (List.range tracks.length).filter (fun t => !mt.2.contains t) }

/-- Step 1 of `ByteTracker.update`: increment `time_since_update` and mark
the track deleted once it exceeds `track_buffer`. -/
def ageTrack (buffer : ℕ) (tr : Track) : Track :=
  let tsu := tr.time_since_update + 1
  { tr with time_since_update := tsu
            state := if buffer < tsu then TrackState.deleted else tr.state }

/-- Step 3 of `ByteTracker.update` for one matched pair: overwrite bbox,
confidence and class, reset `time_since_update`, bump `hits` and `age`,
and confirm once `hits >= 3`. -/
def updateMatchedTrack (det tr : Track) : Track :=
  let tr1 := { tr with bbox := det.bbox, confidence := det.confidence,
                       cls := det.cls, time_since_update := 0,
                       hits := tr.hits + 1, age := tr.age + 1 }
  if 3 ≤ tr1.hits then { tr1 with state := TrackState.confirmed } else tr1

/-- Apply all matches of step 3 to the (aged) track list.  The source
indexes `detections[detectionIdx]` and `this.tracks[trackIdx]` directly;
both indices are always in range, and the `Option` fallback leaving the
list unchanged is only a totalisation of the same behaviour. -/
def applyOneMatch (detections : List Track) (trs : List Track)
    (m : ℕ × ℕ) : List Track :=
  match detections.get? m.1, trs.get? m.2 with
  | some det, some tr => trs.set m.2 (updateMatchedTrack det tr)
  | _, _ => trs

def applyMatches (detections tracks : List Track)
    (ms : List (ℕ × ℕ)) : List Track :=
  ms.foldl (applyOneMatch detections) tracks

/-- The track built by step 4 of `ByteTracker.update` for an unmatched
detection: spread of the detection with fresh `track_id` and
`age = 1`, `hits = 1`, `time_since_update = 0`, `state = tentative`. -/
def mkNewTrack (det : Track) (newId : ℕ) : Track :=
  { det with track_id := newId, age := 1, hits := 1, time_since_update := 0,
             state := TrackState.tentative }

/-- Step 4 of `ByteTracker.update`: walk the unmatched detection indices,
creating a track (with pre-incremented id counter) for every detection
whose confidence reaches `track_thresh`.  Returns the created tracks in
order together with the final id counter. -/
def createNewTracks (opts : TrackOptions) (detections : List Track)
    (unmatched : List ℕ) (count : ℕ) : List Track × ℕ :=
  unmatched.foldl
    (fun acc idx =>
      match detections.get? idx with
      | some det =>
        if opts.track_thresh ≤ det.confidence then
          (acc.1 ++ [mkNewTrack det (acc.2 + 1)], acc.2 + 1)
        else acc
      | none => acc)
    ([], count)

/-- The private state of a `ByteTracker` instance: its live track list and
the `track_id_count` id allocator. -/
structure TrackerState where
  tracks : List Track
  track_id_count : ℕ
deriving DecidableEq

/-- State of a freshly constructed `ByteTracker`. -/
def initialState : TrackerState := { tracks := [], track_id_count := 0 }

/-- `ByteTracker.update`: ages all tracks, matches the detections, applies
matches, creates tracks for unmatched detections, removes deleted tracks
and returns the active (confirmed or tentative) tracks together with the
new tracker state. -/
def update (opts : TrackOptions) (st : TrackerState)
    (detections : List Track) : TrackerState × List Track :=
  let aged := st.tracks.map (ageTrack opts.track_buffer)
  let mr := matchDetectionsToTracks aged detections opts.match_thresh
  let updated := applyMatches detections aged mr.matchPairs
  let nt := createNewTracks opts detections mr.unmatchedDetections st.track_id_count
  let kept := (updated ++ nt.1).filter
    (fun tr => decide (tr.state ≠ TrackState.deleted))
  let active := kept.filter
    (fun tr => decide (tr.state = TrackState.confirmed ∨
                       tr.state = TrackState.tentative))
  ({ tracks := kept, track_id_count := nt.2 }, active)

/-- Fold a whole sequence of `update` calls over a tracker state,
discarding the per-call return lists. -/
def runUpdates (opts : TrackOptions) (st : TrackerState)
    (detss : List (List Track)) : TrackerState :=
  detss.foldl (fun s ds => (update opts s ds).1) st

/-! ## JavaScript number carrier with IEEE special values

The kinematics code divides by time deltas that can be zero and takes
square roots, so `Infinity`, `-Infinity` and `NaN` are observable there.
`JSNum` models a JS number as an exact rational or one of those three
special values, with the IEEE rules for arithmetic on them.  Two
idealisations, both noted where they matter: rationals have no signed
zero (division by the rational `0` behaves as division by `+0`), and a
`Math.sqrt`/`Math.atan2` result that is irrational — hence representable
in JS only as a float approximation — is mapped to `nan`; every concrete
evaluation below stays on exact values, and the general theorems below
are insensitive to which non-`fin` value those operations return. -/

inductive JSNum where
  | fin : ℚ → JSNum
  | posInf : JSNum
  | negInf : JSNum
  | nan : JSNum
deriving DecidableEq

def JSNum.isFinite : JSNum → Bool
  | JSNum.fin _ => true
  | _ => false

def jsNeg : JSNum → JSNum
  | JSNum.fin a => JSNum.fin (-a)
  | JSNum.posInf => JSNum.negInf
  | JSNum.negInf => JSNum.posInf
  | JSNum.nan => JSNum.nan

def jsAdd : JSNum → JSNum → JSNum
  | JSNum.nan, _ => JSNum.nan
  | _, JSNum.nan => JSNum.nan
  | JSNum.posInf, JSNum.negInf => JSNum.nan
  | JSNum.negInf, JSNum.posInf => JSNum.nan
  | JSNum.posInf, _ => JSNum.posInf
  | _, JSNum.posInf => JSNum.posInf
  | JSNum.negInf, _ => JSNum.negInf
  | _, JSNum.negInf => JSNum.negInf
  | JSNum.fin a, JSNum.fin b => JSNum.fin (a + b)

def jsSub (a b : JSNum) : JSNum := jsAdd a (jsNeg b)

def jsMul : JSNum → JSNum → JSNum
  | JSNum.nan, _ => JSNum.nan
  | _, JSNum.nan => JSNum.nan
  | JSNum.fin a, JSNum.fin b => JSNum.fin (a * b)
  | JSNum.posInf, JSNum.fin b =>
    if b = 0 then JSNum.nan else if 0 < b then JSNum.posInf else JSNum.negInf
  | JSNum.fin a, JSNum.posInf =>
    if a = 0 then JSNum.nan else if 0 < a then JSNum.posInf else JSNum.negInf
  | JSNum.negInf, JSNum.fin b =>
    if b = 0 then JSNum.nan else if 0 < b then JSNum.negInf else JSNum.posInf
  | JSNum.fin a, JSNum.negInf =>
    if a = 0 then JSNum.nan else if 0 < a then JSNum.negInf else JSNum.posInf
  | JSNum.posInf, JSNum.posInf => JSNum.posInf
  | JSNum.posInf, JSNum.negInf => JSNum.negInf
  | JSNum.negInf, JSNum.posInf => JSNum.negInf
  | JSNum.negInf, JSNum.negInf => JSNum.posInf

/-- IEEE division on the carrier; division by the rational `0` follows the
`+0` rules (no signed zero in `ℚ`). -/
def jsDiv : JSNum → JSNum → JSNum
  | JSNum.nan, _ => JSNum.nan
  | _, JSNum.nan => JSNum.nan
  | JSNum.fin a, JSNum.fin b =>
    if b = 0 then
      if a = 0 then JSNum.nan else if 0 < a then JSNum.posInf else JSNum.negInf
    else JSNum.fin (a / b)
  | JSNum.fin _, JSNum.posInf => JSNum.fin 0
  | JSNum.fin _, JSNum.negInf => JSNum.fin 0
  | JSNum.posInf, JSNum.fin b => if 0 ≤ b then JSNum.posInf else JSNum.negInf
  | JSNum.negInf, JSNum.fin b => if 0 ≤ b then JSNum.negInf else JSNum.posInf
  | JSNum.posInf, JSNum.posInf => JSNum.nan
  | JSNum.posInf, JSNum.negInf => JSNum.nan
  | JSNum.negInf, JSNum.posInf => JSNum.nan
  | JSNum.negInf, JSNum.negInf => JSNum.nan

/-- `Math.max`: `NaN` if either argument is `NaN`. -/
def jsMax : JSNum → JSNum → JSNum
  | JSNum.nan, _ => JSNum.nan
  | _, JSNum.nan => JSNum.nan
  | JSNum.posInf, _ => JSNum.posInf
  | _, JSNum.posInf => JSNum.posInf
  | JSNum.negInf, b => b
  | a, JSNum.negInf => a
  | JSNum.fin a, JSNum.fin b => JSNum.fin (max a b)

def jsAbs : JSNum → JSNum
  | JSNum.fin a => JSNum.fin |a|
  | JSNum.posInf => JSNum.posInf
  | JSNum.negInf => JSNum.posInf
  | JSNum.nan => JSNum.nan

/-- `a < b` in JS: `false` whenever `NaN` is involved. -/
def jsLt : JSNum → JSNum → Bool
  | JSNum.nan, _ => false
  | _, JSNum.nan => false
  | JSNum.fin a, JSNum.fin b => decide (a < b)
  | JSNum.fin _, JSNum.posInf => true
  | JSNum.fin _, JSNum.negInf => false
  | JSNum.posInf, _ => false
  | JSNum.negInf, JSNum.negInf => false
  | JSNum.negInf, _ => true

def jsGt (a b : JSNum) : Bool := jsLt b a

/-- The largest `k` below the given bound with `k * k ≤ n` (a structurally
recursive integer square root, used only to detect perfect squares). -/
def natSqrtDown (n : ℕ) : ℕ → ℕ
  | 0 => 0
  | k + 1 => if (k + 1) * (k + 1) ≤ n then k + 1 else natSqrtDown n k

/-- Exact square root of a rational, if it exists: a reduced fraction is a
perfect square iff numerator and denominator both are. -/
def ratSqrt (q : ℚ) : Option ℚ :=
  if q < 0 then none
  else
    let n := natSqrtDown q.num.toNat q.num.toNat
    let d := natSqrtDown q.den q.den
    if n * n = q.num.toNat ∧ d * d = q.den then some ((n : ℚ) / (d : ℚ)) else none

/-- `Math.sqrt`.  A nonnegative rational with an irrational root has no
exact image in this embedding and is mapped to `nan` (see the section
comment); negative arguments give `NaN` as in JS. -/
def jsSqrt : JSNum → JSNum
  | JSNum.fin q =>
    if q < 0 then JSNum.nan
    else
      match ratSqrt q with
      | some r => JSNum.fin r
      | none => JSNum.nan
  | JSNum.posInf => JSNum.posInf
  | JSNum.negInf => JSNum.nan
  | JSNum.nan => JSNum.nan

/-- `Math.atan2(y, x) * 180 / Math.PI` on rational inputs.  By Niven's
theorem the result in degrees is rational exactly on the eight half-axes
and diagonals (multiples of 45°), which are the cases below; all other
directions are irrational and mapped to `nan` (see the section comment).
`atan2(0, 0) = 0` as in JS. -/
def jsAtan2Deg (y x : ℚ) : JSNum :=
  if 0 < x ∧ y = 0 then JSNum.fin 0
  else if x = 0 ∧ 0 < y then JSNum.fin 90
  else if x < 0 ∧ y = 0 then JSNum.fin 180
  else if x = 0 ∧ y < 0 then JSNum.fin (-90)
  else if x = 0 ∧ y = 0 then JSNum.fin 0
  else if 0 < x ∧ y = x then JSNum.fin 45
  else if x < 0 ∧ y = -x then JSNum.fin 135
  else if x < 0 ∧ y = x then JSNum.fin (-135)
  else if 0 < x ∧ y = -x then JSNum.fin (-45)
  else JSNum.nan

/-! ## Movement analyzer (src/lib/movement-analyzer.ts) -/

structure MCoord where
  x : ℚ
  y : ℚ
  timestamp : ℚ
deriving DecidableEq

inductive MovementType where
  | sprint
  | stop
  | change_direction
  | steady
deriving DecidableEq

/-- A `MovementEvent`; the human-readable `details` string of the source
(a `toFixed`-formatted message) is presentation only and not modelled. -/
structure MovementEvent where
  type : MovementType
  timestamp : ℚ
deriving DecidableEq

structure MovementStats where
  distance : JSNum
  maxSpeed : JSNum
  avgSpeed : JSNum
  events : List MovementEvent
deriving DecidableEq

/-- Consecutive pairs of a list: the `(coordinates[i-1], coordinates[i])`
pairs visited by the source's `for (let i = 1; ...)` loops. -/
def adjPairs {α : Type} : List α → List (α × α)
  | a :: b :: rest => (a, b) :: adjPairs (b :: rest)
  | _ => []

/-- Distance in meters of one pair: `PIXELS_PER_METER = 100`. -/
def mPairDistance (prev curr : MCoord) : JSNum :=
  let dx := (curr.x - prev.x) / 100
  let dy := (curr.y - prev.y) / 100
  jsSqrt (JSNum.fin (dx * dx + dy * dy))

/-- Speed in m/s of one pair: distance over the time delta in seconds. -/
def mPairSpeed (prev curr : MCoord) : JSNum :=
  jsDiv (mPairDistance prev curr) (JSNum.fin ((curr.timestamp - prev.timestamp) / 1000))

/-- `Math.atan2(dy, dx) * 180 / Math.PI` for one pair. -/
def mPairDirection (prev curr : MCoord) : JSNum :=
  jsAtan2Deg ((curr.y - prev.y) / 100) ((curr.x - prev.x) / 100)

/-- Loop state of `MovementAnalyzer.calculateStats`: the running totals,
`prevDirection` (initially `0`) and the emitted events. -/
structure MState where
  distance : JSNum
  maxSpeed : JSNum
  totalSpeed : JSNum
  prevDirection : JSNum
  events : List MovementEvent
deriving DecidableEq

/-- The event type chosen by the source's if/else chain for the computed
speed and direction change of one pair: thresholds `SPRINT_THRESHOLD = 5`,
`STOP_THRESHOLD = 0.5`, `DIRECTION_CHANGE_THRESHOLD = 45`. -/
def classifyMovement (speed directionChange : JSNum) : MovementType :=
  if jsGt speed (JSNum.fin 5) then MovementType.sprint
  else if jsLt speed (JSNum.fin 0.5) then MovementType.stop
  else if jsGt directionChange (JSNum.fin 45) then MovementType.change_direction
  else MovementType.steady

/-- One iteration of the `calculateStats` loop. -/
def mStep (acc : MState) (pc : MCoord × MCoord) : MState :=
  let speed := mPairSpeed pc.1 pc.2
  let direction := mPairDirection pc.1 pc.2
  let directionChange := jsAbs (jsSub direction acc.prevDirection)
  { distance := jsAdd acc.distance (mPairDistance pc.1 pc.2)
    maxSpeed := jsMax acc.maxSpeed speed
    totalSpeed := jsAdd acc.totalSpeed speed
    prevDirection := direction
    events := acc.events ++
      [{ type := classifyMovement speed directionChange, timestamp := pc.2.timestamp }] }

/-- `MovementAnalyzer.calculateStats`. -/
def calculateStats (coordinates : List MCoord) : MovementStats :=
  if coordinates.length < 2 then
    { distance := JSNum.fin 0, maxSpeed := JSNum.fin 0, avgSpeed := JSNum.fin 0,
      events := [] }
  else
    let s := (adjPairs coordinates).foldl mStep
      { distance := JSNum.fin 0, maxSpeed := JSNum.fin 0, totalSpeed := JSNum.fin 0,
        prevDirection := JSNum.fin 0, events := [] }
    { distance := s.distance, maxSpeed := s.maxSpeed,
      avgSpeed := jsDiv s.totalSpeed (JSNum.fin ((coordinates.length : ℚ) - 1)),
      events := s.events }

/-- The per-pair speeds of a coordinate sequence, in input order. -/
def mPairSpeeds (cs : List MCoord) : List JSNum :=
  (adjPairs cs).map (fun pc => mPairSpeed pc.1 pc.2)

/-- The per-pair movement directions of a coordinate sequence. -/
def mPairDirections (cs : List MCoord) : List JSNum :=
  (adjPairs cs).map (fun pc => mPairDirection pc.1 pc.2)

/-- The per-pair direction changes: each pair's direction against the
previous pair's direction, with `prevDirection = 0` for the first pair. -/
def mPairDirectionChanges (cs : List MCoord) : List JSNum :=
  List.zipWith (fun d pd => jsAbs (jsSub d pd)) (mPairDirections cs)
    (JSNum.fin 0 :: (mPairDirections cs).dropLast)

/-- Helper closed form for the direction-change stream of the
`calculateStats` loop starting from a given `prevDirection`. -/
def dirChangesFrom (d0 : JSNum) : List (MCoord × MCoord) → List JSNum
  | [] => []
  | pc :: rest =>
    jsAbs (jsSub (mPairDirection pc.1 pc.2) d0) ::
      dirChangesFrom (mPairDirection pc.1 pc.2) rest

/-! ## Tennis tracker kinematics and shot detection (src/lib/supabase.ts) -/

/-- `calculateDistance`: euclidean pixel distance times `pixelsToMeters`. -/
def calculateDistance (x1 y1 x2 y2 pixelsToMeters : ℚ) : JSNum :=
  jsMul (jsSqrt (JSNum.fin ((x2 - x1) * (x2 - x1) + (y2 - y1) * (y2 - y1))))
    (JSNum.fin pixelsToMeters)

/-- `calculateSpeed`: distance over `timeDiff`, converted to km/h by the
factor `3.6`.  There is no guard against `timeDiff = 0`. -/
def calculateSpeed (x1 y1 x2 y2 timeDiff pixelsToMeters : ℚ) : JSNum :=
  jsMul (jsDiv (calculateDistance x1 y1 x2 y2 pixelsToMeters) (JSNum.fin timeDiff))
    (JSNum.fin 3.6)

structure PlayerBox where
  x : ℚ
  y : ℚ
  width : ℚ
  height : ℚ
  centerX : ℚ
  centerY : ℚ
  confidence : ℚ
deriving DecidableEq

structure CourtInfo where
  width : ℚ
  height : ℚ
  baselineY : ℚ
  netY : ℚ
  serviceLineY : ℚ
deriving DecidableEq

structure BallTrajectoryPoint where
  x : ℚ
  y : ℚ
  timestamp : ℚ
  speed : ℚ
  confidence : ℚ
deriving DecidableEq

structure TrackingFrame where
  frameId : ℚ
  timestamp : ℚ
  player : Option PlayerBox
  ball : Option PlayerBox
  courtInfo : Option CourtInfo
  distancePlayerToBall : Option ℚ
  isShot : Option Bool
  shotType : Option String
  playerSpeed : Option ℚ
  ballSpeed : Option ℚ
  totalPlayerDistanceCovered : Option ℚ
deriving DecidableEq

/-- The `Partial<TrackingFrame> & { ballSpeed: number }` argument that
`trackFrame` passes to `detectShot` as the current frame. -/
structure CurrentFrameArg where
  frameId : ℚ
  timestamp : ℚ
  player : Option PlayerBox
  ball : Option PlayerBox
  distancePlayerToBall : ℚ
  ballSpeed : ℚ
  courtInfo : Option CourtInfo
deriving DecidableEq

/-- `hasChangedDirection`: the source computes
`Math.abs(Math.atan2(cross, dot)) > Math.PI / 6` for the last three
trajectory points.  `|atan2(cross, dot)| ≤ π/6` holds exactly when the
point `(dot, cross)` lies in the closed cone `dot > 0 ∧ 3·cross² ≤ dot²`
around the positive axis (tan(π/6)² = 1/3), or at the origin where
`atan2(0, 0) = 0`; the boolean below encodes exactly that. -/
def hasChangedDirection (trajectory : List BallTrajectoryPoint) : Bool :=
  if trajectory.length < 3 then false
  else
    match trajectory.drop (trajectory.length - 3) with
    | [point1, point2, point3] =>
      let v1x := point2.x - point1.x
      let v1y := point2.y - point1.y
      let v2x := point3.x - point2.x
      let v2y := point3.y - point2.y
      let cross := v1x * v2y - v1y * v2x
      let dot := v1x * v2x + v1y * v2y
      if cross = 0 ∧ dot = 0 then false
      else !(decide (0 < dot) && decide (3 * cross * cross ≤ dot * dot))
    | _ => false

/-- `isMovingAwayFromPlayer`: the source compares two `Math.sqrt` values;
`√a < √b ↔ a < b` for the nonnegative radicands, so the squared distances
are compared directly. -/
def isMovingAwayFromPlayer
    (player currentBall previousBall : Option PlayerBox) : Bool :=
  match player, currentBall, previousBall with
  | some p, some cb, some pb =>
    let previousSq := (p.centerX - pb.centerX) * (p.centerX - pb.centerX) +
                      (p.centerY - pb.centerY) * (p.centerY - pb.centerY)
    let currentSq := (p.centerX - cb.centerX) * (p.centerX - cb.centerX) +
                     (p.centerY - cb.centerY) * (p.centerY - cb.centerY)
    decide (previousSq < currentSq)
  | _, _, _ => false

/-- `determineShotType`. -/
def determineShotType (previousFrame : TrackingFrame)
    (currentFrame : CurrentFrameArg) : String :=
  match previousFrame.player, previousFrame.ball, currentFrame.player,
        currentFrame.ball, previousFrame.courtInfo with
  | some player, some ball, some _, some _, some courtInfo =>
    let isNearNet := |player.centerY - courtInfo.netY| < 100
    let isNearBaseline := |player.centerY - courtInfo.baselineY| < 100
    let isBallAbovePlayer := ball.centerY < player.centerY - player.height
    let isBallOnRight := player.centerX < ball.centerX
    if isNearBaseline ∧ isBallAbovePlayer then "serve"
    else if isNearNet then "volley"
    else if isBallOnRight then "forehand"
    else "backhand"
  | _, _, _, _, _ => "unknown"

/-- The `proximity` condition of `detectShot`:
`(previousFrame.distancePlayerToBall || Infinity) <
SHOT_DETECTION_DISTANCE_THRESHOLD` — a missing *or zero* (falsy) distance
falls back to `Infinity` and the comparison is then false. -/
def proximityCond (previousFrame : TrackingFrame) : Bool :=
  match previousFrame.distancePlayerToBall with
  | some d => if d = 0 then false else decide (d < 100)
  | none => false

/-- The `speedIncrease` condition of `detectShot`:
`currentFrame.ballSpeed > SHOT_DETECTION_SPEED_THRESHOLD` (15). -/
def speedIncreaseCond (ballSpeed : ℚ) : Bool := decide (15 < ballSpeed)

structure ShotDetection where
  isShot : Bool
  shotType : Option String
deriving DecidableEq

/-- `detectShot`.  The module-level `recentBallTrajectory` buffer is
passed explicitly. -/
def detectShot (previousFrame : TrackingFrame) (currentFrame : CurrentFrameArg)
    (recentBallTrajectory : List BallTrajectoryPoint) : ShotDetection :=
  match previousFrame.player, previousFrame.ball,
        currentFrame.player, currentFrame.ball with
  | some _, some _, some _, some _ =>
    let proximity := proximityCond previousFrame
    let speedIncrease := speedIncreaseCond currentFrame.ballSpeed
    let directionChange := hasChangedDirection recentBallTrajectory
    let movingAway := isMovingAwayFromPlayer currentFrame.player currentFrame.ball
      previousFrame.ball
    let isShot := (proximity && speedIncrease) || (proximity && directionChange) ||
                  (speedIncrease && movingAway)
    if isShot then
      { isShot := true, shotType := some (determineShotType previousFrame currentFrame) }
    else { isShot := false, shotType := none }
  | _, _, _, _ => { isShot := false, shotType := none }

/-! ## Aggregation (src/lib/supabase.ts `generatePositionHeatmap`,
`calculateCourtCoverage`, `generateAnalysisResult`) -/

/-- In-place update of one list position; positions outside the list are
left unchanged.  (In JS a negative grid index either creates a stray
non-element property or throws; neither touches the grid cells that the
aggregation reads back, so a no-op is the faithful cell-level model.) -/
def listModify {α : Type} (f : α → α) : ℕ → List α → List α
  | _, [] => []
  | 0, a :: rest => f a :: rest
  | n + 1, a :: rest => a :: listModify f n rest

/-- `heatmap[gridY][gridX]++` for possibly negative (clamped-above) grid
indices. -/
def heatmapInc (heatmap : List (List ℕ)) (gridY gridX : ℤ) : List (List ℕ) :=
  if 0 ≤ gridY ∧ 0 ≤ gridX then
    listModify (listModify (fun c => c + 1) gridX.toNat) gridY.toNat heatmap
  else heatmap

/-- `generatePositionHeatmap`: a `gridSize × gridSize` grid of counts of
player center positions, with `courtInfo` defaulting to width/height 1 and
the grid index capped at `gridSize - 1`. -/
def generatePositionHeatmap (frames : List TrackingFrame) (gridSize : ℕ) :
    List (List ℕ) :=
  frames.foldl
    (fun heatmap frame =>
      match frame.player with
      | some player =>
        let wh := match frame.courtInfo with
          | some ci => (ci.width, ci.height)
          | none => ((1 : ℚ), (1 : ℚ))
        let gridX := min ((gridSize : ℤ) - 1) ⌊player.centerX / wh.1 * gridSize⌋
        let gridY := min ((gridSize : ℤ) - 1) ⌊player.centerY / wh.2 * gridSize⌋
        heatmapInc heatmap gridY gridX
      | none => heatmap)
    (List.replicate gridSize (List.replicate gridSize 0))

/-- `calculateCourtCoverage`: regenerate the heatmap, count covered
(positive) and total cells with the two `forEach` loops, and return
`coveredCells / totalCells * 100`. -/
def calculateCourtCoverage (frames : List TrackingFrame) (gridSize : ℕ) : ℚ :=
  let heatmap := generatePositionHeatmap frames gridSize
  let counts := heatmap.foldl
    (fun acc row =>
      row.foldl
        (fun acc2 cell =>
          ((if 0 < cell then acc2.1 + 1 else acc2.1), acc2.2 + 1))
        acc)
    ((0 : ℕ), (0 : ℕ))
  ((counts.1 : ℚ) / (counts.2 : ℚ)) * 100

/-- The running totals of the `generateAnalysisResult` frame loop that the
claims refer to.  Truthiness guards (`if (frame.playerSpeed)`) make a
missing or zero value skip the accumulation. -/
structure BasicAgg where
  totalPlayerSpeed : ℚ
  maxPlayerSpeed : ℚ
  shotsHit : ℕ
  totalBallSpeed : ℚ
  maxBallSpeed : ℚ
deriving DecidableEq

def basicAggStep (acc : BasicAgg) (frame : TrackingFrame) : BasicAgg :=
  let acc1 := match frame.playerSpeed with
    | some s =>
      if s = 0 then acc
      else { acc with totalPlayerSpeed := acc.totalPlayerSpeed + s,
                      maxPlayerSpeed := max acc.maxPlayerSpeed s }
    | none => acc
  match frame.isShot with
  | some true =>
    let acc2 := { acc1 with shotsHit := acc1.shotsHit + 1 }
    match frame.ballSpeed with
    | some bs =>
      if bs = 0 then acc2
      else { acc2 with totalBallSpeed := acc2.totalBallSpeed + bs,
                       maxBallSpeed := max acc2.maxBallSpeed bs }
    | none => acc2
  | _ => acc1

def basicAgg (frames : List TrackingFrame) : BasicAgg :=
  frames.foldl basicAggStep
    { totalPlayerSpeed := 0, maxPlayerSpeed := 0, shotsHit := 0,
      totalBallSpeed := 0, maxBallSpeed := 0 }

/-- `generateAnalysisResult`'s `playerStats.averageSpeed`:
`shotsHit > 0 ? totalPlayerSpeed / frames.length : 0`. -/
def generateAnalysisAverageSpeed (frames : List TrackingFrame) : ℚ :=
  let agg := basicAgg frames
  if 0 < agg.shotsHit then agg.totalPlayerSpeed / (frames.length : ℚ) else 0

/-- `generateAnalysisResult`'s `courtCoverage` field:
`calculateCourtCoverage(frames)` with the default grid size 10. -/
def generateAnalysisCourtCoverage (frames : List TrackingFrame) : ℚ :=
  calculateCourtCoverage frames 10

/-! ## Advanced tracker aggregation (src/lib/tennis-tracker-advanced.ts) -/

structure Player where
  id : String
  x : ℚ
  y : ℚ
  width : ℚ
  height : ℚ
  centerX : ℚ
  centerY : ℚ
  confidence : ℚ
deriving DecidableEq

/-- The fields of `AdvancedTrackingFrame` used by
`generateAdvancedAnalysisResult`. -/
structure AdvFrame where
  timestamp : ℚ
  players : List Player
  ball : Option PlayerBox
  ballSpeed : Option ℚ
  isShot : Bool
deriving DecidableEq

/-- The advanced tracker's own `calculateSpeed` (m/s, no 3.6 factor):
`sqrt(Δx² + Δy²) * pixelsToMeters / timeDiff`. -/
def advCalculateSpeed (x1 y1 x2 y2 timeDiff pixelsToMeters : ℚ) : JSNum :=
  jsDiv
    (jsMul (jsSqrt (JSNum.fin ((x2 - x1) * (x2 - x1) + (y2 - y1) * (y2 - y1))))
      (JSNum.fin pixelsToMeters))
    (JSNum.fin timeDiff)

/-- The frames in which a given player id appears
(`frames.filter(frame => frame.players.some(p => p.id === playerId))`). -/
def advPlayerFrames (playerId : String) (frames : List AdvFrame) : List AdvFrame :=
  frames.filter (fun f => f.players.any (fun p => p.id == playerId))

/-- `frame.players.find(p => p.id === playerId)`. -/
def findPlayer (playerId : String) (f : AdvFrame) : Option Player :=
  f.players.find? (fun p => p.id == playerId)

/-- The `playerSpeeds` array of `generateAdvancedAnalysisResult`: for every
consecutive pair of the player's frames with the player found in both,
push the pairwise speed converted to km/h (`* 3.6`). -/
def advPlayerSpeeds (playerId : String) (frames : List AdvFrame)
    (pixelsToMeters : ℚ) : List JSNum :=
  (adjPairs (advPlayerFrames playerId frames)).foldl
    (fun acc pr =>
      match findPlayer playerId pr.1, findPlayer playerId pr.2 with
      | some prevPlayer, some currPlayer =>
        acc ++ [jsMul
          (advCalculateSpeed currPlayer.centerX currPlayer.centerY
            prevPlayer.centerX prevPlayer.centerY
            (pr.2.timestamp - pr.1.timestamp) pixelsToMeters)
          (JSNum.fin 3.6)]
      | _, _ => acc)
    []

/-- `playerSpeeds.reduce((sum, speed) => sum + speed, 0)`. -/
def jsSum (l : List JSNum) : JSNum := l.foldl jsAdd (JSNum.fin 0)

/-- The advanced result's per-player `averageSpeed`:
`playerSpeeds.length > 0 ? sum / length : 0`. -/
def advAverageSpeed (playerId : String) (frames : List AdvFrame)
    (pixelsToMeters : ℚ) : JSNum :=
  let playerSpeeds := advPlayerSpeeds playerId frames pixelsToMeters
  if playerSpeeds.length = 0 then JSNum.fin 0
  else jsDiv (jsSum playerSpeeds) (JSNum.fin (playerSpeeds.length : ℚ))

/-- The insertion-ordered `playerIds` set of
`generateAdvancedAnalysisResult`. -/
def advPlayerIds (frames : List AdvFrame) : List String :=
  frames.foldl
    (fun acc f =>
      f.players.foldl (fun a p => if p.id ∈ a then a else a ++ [p.id]) acc)
    []

/-- `Array.from(playerIds)[0] || 'player1'` (the empty string is falsy). -/
def advPrimaryPlayerId (frames : List AdvFrame) : String :=
  match (advPlayerIds frames).head? with
  | some s => if s = "" then "player1" else s
  | none => "player1"

/-- The position list handed to `createHeatmap` for one player. -/
def advPlayerPositions (playerId : String) (frames : List AdvFrame) :
    List (ℚ × ℚ) :=
  (advPlayerFrames playerId frames).filterMap
    (fun f => (findPlayer playerId f).map (fun p => (p.centerX, p.centerY)))

/-- The advanced tracker's `createHeatmap`: fixed 10×10 grid, index
`min(floor(pos/dim * 10), 9)`. -/
def createHeatmap (positions : List (ℚ × ℚ)) (width height : ℚ) :
    List (List ℕ) :=
  positions.foldl
    (fun grid pos =>
      let gridX := min ⌊pos.1 / width * 10⌋ 9
      let gridY := min ⌊pos.2 / height * 10⌋ 9
      heatmapInc grid gridY gridX)
    (List.replicate 10 (List.replicate 10 0))

/-- The primary player's `positionHeatmap` in the advanced result. -/
def advPrimaryHeatmap (frames : List AdvFrame) (width height : ℚ) :
    List (List ℕ) :=
  createHeatmap (advPlayerPositions (advPrimaryPlayerId frames) frames) width height

/-- The advanced result's `courtCoverage` field: the source returns the
literal `75` (`courtCoverage: 75, // Estimated coverage`), ignoring the
frames entirely. -/
def advCourtCoverage (_frames : List AdvFrame) : ℚ := 75

/-! ## Definitions taken from the specification's wording

These are *not* translations of the source; they state what the spec
claims and are compared against the source translations above. -/

/-- Spec wording: the arithmetic mean of a list of (rational) samples. -/
def specArithMeanQ (l : List ℚ) : ℚ := l.sum / (l.length : ℚ)

/-- Spec wording: the arithmetic mean on the `JSNum` carrier, as the sum
of the samples over their count. -/
def specArithMean (l : List JSNum) : JSNum :=
  jsDiv (jsSum l) (JSNum.fin (l.length : ℚ))

/-- Spec wording: the per-consecutive-pair speed samples recorded for a
player: one km/h sample for each consecutive pair of the frames in which
that player appears. -/
def specSpeedSamples (playerId : String) (frames : List AdvFrame)
    (pixelsToMeters : ℚ) : List JSNum :=
  (adjPairs (advPlayerFrames playerId frames)).filterMap
    (fun pr =>
      match findPlayer playerId pr.1, findPlayer playerId pr.2 with
      | some prevPlayer, some currPlayer =>
        some (jsMul
          (advCalculateSpeed currPlayer.centerX currPlayer.centerY
            prevPlayer.centerX prevPlayer.centerY
            (pr.2.timestamp - pr.1.timestamp) pixelsToMeters)
          (JSNum.fin 3.6))
      | _, _ => none)

/-- Spec wording: the per-frame speed samples recorded in the basic
result's frames (the `playerSpeed` values present). -/
def specRecordedPlayerSpeeds (frames : List TrackingFrame) : List ℚ :=
  frames.filterMap (fun f => f.playerSpeed)

/-- Spec wording: the number of heatmap cells with a nonzero count. -/
def specNonzeroCells (heatmap : List (List ℕ)) : ℕ :=
  (heatmap.map (fun row => row.countP (fun c => decide (0 < c)))).sum

/-- Spec wording: percentage of heatmap cells with a nonzero count, out
of `gridSize²` cells. -/
def specCoveragePercent (heatmap : List (List ℕ)) (gridSize : ℕ) : ℚ :=
  100 * (specNonzeroCells heatmap : ℚ) / ((gridSize : ℚ) * (gridSize : ℚ))

/-! ## Derived tracker notions used by the lifecycle claims -/

/-- The match result computed inside one `update` call (after aging). -/
def mrOf (opts : TrackOptions) (st : TrackerState) (dets : List Track) :
    MatchResult :=
  matchDetectionsToTracks (st.tracks.map (ageTrack opts.track_buffer)) dets
    opts.match_thresh

/-- The track indices claimed by the matching of one `update` call. -/
def matchedTrackIdxs (opts : TrackOptions) (st : TrackerState)
    (dets : List Track) : List ℕ :=
  (mrOf opts st dets).matchPairs.map Prod.snd

/-- The `track_id`s of the tracks claimed by the matching of one `update`
call: a track is "matched by a detection" in a call iff its id is in this
list. -/
def matchedTrackIds (opts : TrackOptions) (st : TrackerState)
    (dets : List Track) : List ℕ :=
  (matchedTrackIdxs opts st dets).filterMap
    (fun t => (st.tracks.get? t).map (fun tr => tr.track_id))

/-- Track id `j` is matched by no detection in any call of the given
sequence of `update` calls. -/
def unmatchedDuringB (opts : TrackOptions) :
    TrackerState → List (List Track) → ℕ → Bool
  | _, [], _ => true
  | st, ds :: rest, j =>
    !(matchedTrackIds opts st ds).contains j &&
      unmatchedDuringB opts (update opts st ds).1 rest j

/-- No call of the given sequence of `update` calls returns a track with
id `j`. -/
def neverReturnsB (opts : TrackOptions) :
    TrackerState → List (List Track) → ℕ → Bool
  | _, [], _ => true
  | st, ds :: rest, j =>
    (update opts st ds).2.all (fun tr => !(tr.track_id == j)) &&
      neverReturnsB opts (update opts st ds).1 rest j

/-- The tracker-state invariant maintained by `update` from the initial
state: ids are pairwise distinct and bounded by the id allocator, no
deleted track is stored between calls, and `time_since_update` never
exceeds the buffer between calls. -/
def Inv (opts : TrackOptions) (st : TrackerState) : Prop :=
  (st.tracks.map (fun tr => tr.track_id)).Nodup ∧
  (∀ tr ∈ st.tracks, tr.track_id ≤ st.track_id_count) ∧
  (∀ tr ∈ st.tracks, tr.state ≠ TrackState.deleted) ∧
  (∀ tr ∈ st.tracks, tr.time_since_update ≤ opts.track_buffer)

/-- The unmatched detections that pass the confidence threshold, in
order: exactly those for which step 4 of `update` creates a track. -/
def newDetections (opts : TrackOptions) (dets : List Track)
    (unmatched : List ℕ) : List Track :=
  (unmatched.filterMap dets.get?).filter
    (fun det => decide (opts.track_thresh ≤ det.confidence))

/-- Closed form of the tracks created by step 4 of `update`: one fresh
track per surviving detection, with consecutive ids starting at `c + 1`. -/
def mkNewTracksFrom (c : ℕ) : List Track → List Track
  | [] => []
  | det :: rest => mkNewTrack det (c + 1) :: mkNewTracksFrom (c + 1) rest

/-! ## Concrete inputs used by counterexamples and witnesses -/

/-- A well-formed detection: a confident ball at `(0, 0)` of size 10×10. -/
def detA : Track :=
  { id := 0, cls := "ball", bbox := (0, 0, 10, 10), confidence := 0.9,
    track_id := 0, age := 0, hits := 0, time_since_update := 0,
    state := TrackState.tentative }

/-- Options with `track_buffer = 1` (all other options default). -/
def opts1 : TrackOptions := mkTrackOptions none (some 1) none none none

/-- Tracker state after seeing `detA` three times (track 1 confirmed) and
then 30 empty frames (`time_since_update = 30`, still stored). -/
def c1State : TrackerState :=
  runUpdates defaultOptions initialState
    ([[detA], [detA], [detA]] ++ List.replicate 30 [])

/-- A malformed detection: negative-size bbox, confidence 0.9. -/
def malformedDet : Track :=
  { id := 0, cls := "ball", bbox := (0, 0, -5, -5), confidence := 0.9,
    track_id := 0, age := 0, hits := 0, time_since_update := 0,
    state := TrackState.tentative }

/-- A degenerate box: zero width and height. -/
def degBox : ℚ × ℚ × ℚ × ℚ := (0, 0, 0, 0)

/-- Three coordinates 0.1 s apart, each 1000 px (= 10 m) along the x-axis
from the previous one: both pairs move at 100 m/s, far above the sprint
threshold. -/
def c7Coords : List MCoord :=
  [{ x := 0, y := 0, timestamp := 0 },
   { x := 1000, y := 0, timestamp := 100 },
   { x := 2000, y := 0, timestamp := 200 }]

/-- A frame whose only content is a recorded player speed of 10 km/h and
no shot. -/
def speedOnlyFrame : TrackingFrame :=
  { frameId := 0, timestamp := 0, player := none, ball := none,
    courtInfo := none, distancePlayerToBall := none, isShot := none,
    shotType := none, playerSpeed := some 10, ballSpeed := none,
    totalPlayerDistanceCovered := none }

/-- A player box at center `(5, 5)`. -/
def w5Box : PlayerBox :=
  { x := 0, y := 0, width := 10, height := 10, centerX := 5, centerY := 5,
    confidence := 1 }

/-- A previous frame with player and ball present at distance 50. -/
def w5Prev : TrackingFrame :=
  { frameId := 0, timestamp := 0, player := some w5Box, ball := some w5Box,
    courtInfo := none, distancePlayerToBall := some 50, isShot := none,
    shotType := none, playerSpeed := none, ballSpeed := none,
    totalPlayerDistanceCovered := none }

/-- A current-frame argument with player and ball present and ball speed
20 (above the shot threshold 15). -/
def w5Curr : CurrentFrameArg :=
  { frameId := 1, timestamp := 1, player := some w5Box, ball := some w5Box,
    distancePlayerToBall := 50, ballSpeed := 20, courtInfo := none }

/-- One advanced frame with a single player standing at `(5, 5)`. -/
def c9Frame : AdvFrame :=
  { timestamp := 0,
    players := [{ id := "player1", x := 0, y := 0, width := 10, height := 10,
                  centerX := 5, centerY := 5, confidence := 1 }],
    ball := none, ballSpeed := none, isShot := false }

attribute [local semireducible] Rat.ofScientific Rat.mul Rat.inv Rat.add Rat.sub

set_option maxRecDepth 10000

/-! # Theorems -/

/-- C4 (amended): for boxes of positive width and height, IoU is 1 on two
identical boxes, 0 on boxes whose intersection is empty or degenerate,
and 1/2 when the first box contains the second one of half its area. -/
theorem claim_C4 (x y w h x' y' w' h' : ℚ)
    (hw : 0 < w) (hh : 0 < h) (hw' : 0 < w') (hh' : 0 < h') :
    iou (x, y, w, h) (x, y, w, h) = 1 ∧
    ((min (x + w) (x' + w') ≤ max x x' ∨ min (y + h) (y' + h') ≤ max y y') →
      iou (x, y, w, h) (x', y', w', h') = 0) ∧
    (x ≤ x' → y ≤ y' → x' + w' ≤ x + w → y' + h' ≤ y + h → w * h = 2 * (w' * h') →
      iou (x, y, w, h) (x', y', w', h') = 1 / 2) := by
  refine ⟨?_, ?_, ?_⟩
  · show iou (x, y, w, h) (x, y, w, h) = 1
    unfold iou
    simp only [min_self, max_self]
    rw [if_neg (by push_neg; constructor <;> linarith)]
    have hA : (x + w - x) * (y + h - y) = w * h := by ring
    rw [show (x + w - x) * (y + h - y) + (x + w - x) * (y + h - y) -
          (x + w - x) * (y + h - y) = (x + w - x) * (y + h - y) from by ring]
    exact div_self (by rw [hA]; positivity)
  · intro hd
    unfold iou
    dsimp only
    split_ifs with hif
    · rfl
    · push_neg at hif
      rcases hd with hx | hy
      · rw [show min (x + w) (x' + w') - max x x' = 0 from by
          have := hif.1; linarith [le_antisymm hx this]]
        rw [zero_mul, zero_div]
      · rw [show min (y + h) (y' + h') - max y y' = 0 from by
          have := hif.2; linarith [le_antisymm hy this]]
        rw [mul_zero, zero_div]
  · intro h1 h2 h3 h4 h5
    unfold iou
    dsimp only
    rw [min_eq_right h3, max_eq_right h1, min_eq_right h4, max_eq_right h2]
    rw [if_neg (by push_neg; constructor <;> linarith)]
    rw [show (x' + w' - x') * (y' + h' - y') = w' * h' from by ring,
        show (x + w - x) * (y + h - y) = w * h from by ring, h5]
    rw [show 2 * (w' * h') + w' * h' - w' * h' = 2 * (w' * h') from by ring]
    rw [div_eq_iff (by positivity)]
    ring

/-- C4 counterexample: for the degenerate box of zero width and height,
`iou` of two identical boxes is not 1 (the division `0 / 0` of the source
yields `NaN` in JS and the junk value `0` here; both differ from 1). -/
theorem claim_C4_counterexample : iou degBox degBox ≠ 1 := by decide

theorem claim_C4_witness :
    iou (0, 0, 10, 10) (0, 0, 10, 10) = 1 ∧
    iou (0, 0, 10, 10) (100, 0, 10, 10) = 0 ∧
    iou (0, 0, 10, 10) (0, 0, 10, 5) = 1 / 2 :=
  ⟨(claim_C4 0 0 10 10 100 0 10 10 (by norm_num) (by norm_num) (by norm_num)
      (by norm_num)).1,
   (claim_C4 0 0 10 10 100 0 10 10 (by norm_num) (by norm_num) (by norm_num)
      (by norm_num)).2.1 (by norm_num),
   (claim_C4 0 0 10 10 0 0 10 5 (by norm_num) (by norm_num) (by norm_num)
      (by norm_num)).2.2 (by norm_num) (by norm_num) (by norm_num) (by norm_num)
      (by norm_num)⟩

/-- C10 (amended): a malformed (negative-size) detection is not dropped:
`update` on a fresh tracker turns it into a new tentative track whenever
its confidence reaches `track_thresh` (processing itself never fails —
`update` is total). -/
theorem claim_C10 (opts : TrackOptions) (det : Track)
    (hmal : det.bbox.2.2.1 < 0 ∨ det.bbox.2.2.2 < 0)
    (hconf : opts.track_thresh ≤ det.confidence) :
    (update opts initialState [det]).2 = [mkNewTrack det 1] ∧
    (update opts initialState [det]).1.tracks = [mkNewTrack det 1] := by
  have h2 : update opts initialState [det] =
      ({ tracks := [mkNewTrack det 1], track_id_count := 1 }, [mkNewTrack det 1]) := by
    simp [update, initialState, matchDetectionsToTracks, applyMatches, createNewTracks,
          mkNewTrack, List.range_succ, hconf]
  rw [h2]
  exact ⟨rfl, rfl⟩

/-- C10 counterexample: the malformed detection (bbox `(0,0,-5,-5)`,
confidence 0.9) is not dropped — the `update` call returns a freshly
created track carrying the malformed bbox. -/
theorem claim_C10_counterexample :
    ((update defaultOptions initialState [malformedDet]).2.map
        (fun tr => (tr.bbox, tr.state))) =
      [((0, 0, -5, -5), TrackState.tentative)] := by decide

theorem claim_C10_witness :
    (update defaultOptions initialState [malformedDet]).2 = [mkNewTrack malformedDet 1] :=
  (claim_C10 defaultOptions malformedDet (Or.inl (by norm_num [malformedDet]))
    (by norm_num [defaultOptions, mkTrackOptions, malformedDet])).1

/-- C5: with player and ball present in both frames, `detectShot` flags a
shot exactly by the boolean formula
`(proximity ∧ speedIncrease) ∨ (proximity ∧ directionChange) ∨
(speedIncrease ∧ movingAway)` over its four independently evaluated
conditions, and the flag is a deterministic pure function of those four
booleans. -/
theorem claim_C5 (prev : TrackingFrame) (curr : CurrentFrameArg)
    (traj : List BallTrajectoryPoint)
    (hpp : prev.player.isSome = true) (hpb : prev.ball.isSome = true)
    (hcp : curr.player.isSome = true) (hcb : curr.ball.isSome = true) :
    ((detectShot prev curr traj).isShot =
      ((proximityCond prev && speedIncreaseCond curr.ballSpeed) ||
       (proximityCond prev && hasChangedDirection traj) ||
       (speedIncreaseCond curr.ballSpeed &&
         isMovingAwayFromPlayer curr.player curr.ball prev.ball))) ∧
    (∀ (prev' : TrackingFrame) (curr' : CurrentFrameArg)
        (traj' : List BallTrajectoryPoint),
      prev'.player.isSome = true → prev'.ball.isSome = true →
      curr'.player.isSome = true → curr'.ball.isSome = true →
      proximityCond prev = proximityCond prev' →
      speedIncreaseCond curr.ballSpeed = speedIncreaseCond curr'.ballSpeed →
      hasChangedDirection traj = hasChangedDirection traj' →
      isMovingAwayFromPlayer curr.player curr.ball prev.ball =
        isMovingAwayFromPlayer curr'.player curr'.ball prev'.ball →
      (detectShot prev curr traj).isShot = (detectShot prev' curr' traj').isShot) := by
  have key : ∀ (pf : TrackingFrame) (cf : CurrentFrameArg)
      (tj : List BallTrajectoryPoint),
      pf.player.isSome = true → pf.ball.isSome = true →
      cf.player.isSome = true → cf.ball.isSome = true →
      (detectShot pf cf tj).isShot =
        ((proximityCond pf && speedIncreaseCond cf.ballSpeed) ||
         (proximityCond pf && hasChangedDirection tj) ||
         (speedIncreaseCond cf.ballSpeed &&
           isMovingAwayFromPlayer cf.player cf.ball pf.ball)) := by
    intro pf cf tj h1 h2 h3 h4
    rcases Option.isSome_iff_exists.mp h1 with ⟨p1, hp1⟩
    rcases Option.isSome_iff_exists.mp h2 with ⟨p2, hp2⟩
    rcases Option.isSome_iff_exists.mp h3 with ⟨p3, hp3⟩
    rcases Option.isSome_iff_exists.mp h4 with ⟨p4, hp4⟩
    unfold detectShot
    rw [hp1, hp2, hp3, hp4]
    dsimp only
    split_ifs with hs
    · exact hs.symm
    · exact (Bool.not_eq_true _).mp hs |>.symm
  refine ⟨key prev curr traj hpp hpb hcp hcb, ?_⟩
  intro prev' curr' traj' h1 h2 h3 h4 e1 e2 e3 e4
  rw [key prev curr traj hpp hpb hcp hcb, key prev' curr' traj' h1 h2 h3 h4,
      e1, e2, e3, e4]

theorem claim_C5_witness :
    (detectShot w5Prev w5Curr []).isShot =
      ((proximityCond w5Prev && speedIncreaseCond w5Curr.ballSpeed) ||
       (proximityCond w5Prev && hasChangedDirection []) ||
       (speedIncreaseCond w5Curr.ballSpeed &&
         isMovingAwayFromPlayer w5Curr.player w5Curr.ball w5Prev.ball)) :=
  (claim_C5 w5Prev w5Curr [] (by decide) (by decide) (by decide) (by decide)).1

theorem jsAdd_nonfin_left (a b : JSNum) (h : a.isFinite = false) :
    (jsAdd a b).isFinite = false := by
  cases a <;> cases b <;> simp_all [jsAdd, JSNum.isFinite]

theorem jsAdd_nonfin_right (a b : JSNum) (h : b.isFinite = false) :
    (jsAdd a b).isFinite = false := by
  cases a <;> cases b <;> simp_all [jsAdd, JSNum.isFinite]

theorem jsDiv_fin_nonfin (a : JSNum) (c : ℚ) (h : a.isFinite = false) :
    (jsDiv a (JSNum.fin c)).isFinite = false := by
  cases a <;> simp_all [jsDiv, JSNum.isFinite] <;> split_ifs <;> rfl

theorem jsDiv_by_zero_nonfin (a : JSNum) :
    (jsDiv a (JSNum.fin 0)).isFinite = false := by
  cases a <;> simp [jsDiv, JSNum.isFinite] <;> split_ifs <;> rfl

theorem jsMul_fin_nonfin (a : JSNum) (c : ℚ) (h : a.isFinite = false) :
    (jsMul a (JSNum.fin c)).isFinite = false := by
  cases a <;> simp_all [jsMul, JSNum.isFinite] <;> split_ifs <;> rfl

theorem mStep_totalSpeed (acc : MState) (pc : MCoord × MCoord) :
    (mStep acc pc).totalSpeed = jsAdd acc.totalSpeed (mPairSpeed pc.1 pc.2) := rfl

theorem mStep_events (acc : MState) (pc : MCoord × MCoord) :
    (mStep acc pc).events = acc.events ++
      [{ type := classifyMovement (mPairSpeed pc.1 pc.2)
            (jsAbs (jsSub (mPairDirection pc.1 pc.2) acc.prevDirection)),
         timestamp := pc.2.timestamp }] := rfl

theorem mStep_prevDirection (acc : MState) (pc : MCoord × MCoord) :
    (mStep acc pc).prevDirection = mPairDirection pc.1 pc.2 := rfl

theorem mPairSpeed_nonfin_of_eq_ts (p q : MCoord) (h : p.timestamp = q.timestamp) :
    (mPairSpeed p q).isFinite = false := by
  unfold mPairSpeed
  rw [h, sub_self, zero_div]
  exact jsDiv_by_zero_nonfin _

theorem foldl_mStep_total_nonfin (L : List (MCoord × MCoord)) :
    ∀ acc : MState, acc.totalSpeed.isFinite = false →
      ((L.foldl mStep acc).totalSpeed).isFinite = false := by
  induction L with
  | nil => exact fun acc h => h
  | cons pr rest ih =>
    intro acc h
    rw [List.foldl_cons]
    exact ih _ (by rw [mStep_totalSpeed]; exact jsAdd_nonfin_left _ _ h)

theorem adjPairs_cons_cons (a b : MCoord) (l : List MCoord) :
    adjPairs (a :: b :: l) = (a, b) :: adjPairs (b :: l) := rfl

theorem adjPairs_append_middle :
    ∀ (A : List MCoord) (p q : MCoord) (B : List MCoord),
      ∃ L1, adjPairs (A ++ p :: q :: B) = L1 ++ (p, q) :: adjPairs (q :: B) := by
  intro A
  induction A with
  | nil => exact fun p q B => ⟨[], rfl⟩
  | cons a A ih =>
    intro p q B
    cases A with
    | nil => exact ⟨[(a, p)], rfl⟩
    | cons a' A' =>
      obtain ⟨L1, hL1⟩ := ih p q B
      refine ⟨(a, a') :: L1, ?_⟩
      show (a, a') :: adjPairs (a' :: (A' ++ p :: q :: B)) = _
      simp only [List.cons_append] at hL1
      rw [hL1]
      rfl

/-- C6 (amended): a zero time delta between two consecutive samples makes
the pairwise speed a non-finite IEEE value, not a `DivisionByZero` error,
and `calculateStats` does not skip it: the non-finite value propagates
into the aggregated `avgSpeed`.  Likewise `calculateSpeed` with
`timeDiff = 0` returns a non-finite value instead of failing. -/
theorem claim_C6 (pre post : List MCoord) (p q : MCoord)
    (hts : p.timestamp = q.timestamp) :
    ((calculateStats (pre ++ p :: q :: post)).avgSpeed).isFinite = false ∧
    ∀ x1 y1 x2 y2 r : ℚ, (calculateSpeed x1 y1 x2 y2 0 r).isFinite = false := by
  constructor
  · unfold calculateStats
    have hlen : ¬((pre ++ p :: q :: post).length < 2) := by
      simp only [List.length_append, List.length_cons]
      omega
    rw [if_neg hlen]
    dsimp only
    apply jsDiv_fin_nonfin
    obtain ⟨L1, hL⟩ := adjPairs_append_middle pre p q post
    rw [hL, List.foldl_append, List.foldl_cons]
    apply foldl_mStep_total_nonfin
    rw [mStep_totalSpeed]
    exact jsAdd_nonfin_right _ _ (mPairSpeed_nonfin_of_eq_ts p q hts)
  · intro x1 y1 x2 y2 r
    unfold calculateSpeed
    apply jsMul_fin_nonfin
    exact jsDiv_by_zero_nonfin _

/-- C6 counterexample: `calculateSpeed` over a zero time delta returns the
ordinary IEEE value `Infinity` (no error of any kind), and the movement
analyzer aggregates a duplicated sample into `avgSpeed = maxSpeed = NaN`
instead of skipping it. -/
theorem claim_C6_counterexample :
    calculateSpeed 0 0 3 4 0 (1 / 100) = JSNum.posInf ∧
    (calculateStats [{ x := 0, y := 0, timestamp := 0 },
                     { x := 0, y := 0, timestamp := 0 }]).avgSpeed = JSNum.nan ∧
    (calculateStats [{ x := 0, y := 0, timestamp := 0 },
                     { x := 0, y := 0, timestamp := 0 }]).maxSpeed = JSNum.nan := by
  decide

theorem claim_C6_witness :
    ((calculateStats ([] ++ ({ x := 0, y := 0, timestamp := 0 } : MCoord) ::
        ({ x := 0, y := 0, timestamp := 0 } : MCoord) :: [])).avgSpeed).isFinite
      = false ∧
    (calculateSpeed 0 0 3 4 0 1).isFinite = false :=
  ⟨(claim_C6 [] [] { x := 0, y := 0, timestamp := 0 }
      { x := 0, y := 0, timestamp := 0 } rfl).1,
   (claim_C6 [] [] { x := 0, y := 0, timestamp := 0 }
      { x := 0, y := 0, timestamp := 0 } rfl).2 0 0 3 4 1⟩

theorem adjPairs_length : ∀ (cs : List MCoord), (adjPairs cs).length = cs.length - 1 := by
  intro cs
  induction cs with
  | nil => rfl
  | cons a t ih =>
    cases t with
    | nil => rfl
    | cons b r =>
      rw [adjPairs_cons_cons]
      simp only [List.length_cons]
      rw [List.length_cons] at ih
      omega

theorem dirChangesFrom_eq (L : List (MCoord × MCoord)) :
    ∀ d0 : JSNum,
      dirChangesFrom d0 L =
        List.zipWith (fun d pd => jsAbs (jsSub d pd))
          (L.map (fun pc => mPairDirection pc.1 pc.2))
          (d0 :: (L.map (fun pc => mPairDirection pc.1 pc.2)).dropLast) := by
  induction L with
  | nil => intro d0; rfl
  | cons pc rest ih =>
    intro d0
    cases rest with
    | nil => rfl
    | cons pc' rest' =>
      show jsAbs (jsSub (mPairDirection pc.1 pc.2) d0) ::
          dirChangesFrom (mPairDirection pc.1 pc.2) (pc' :: rest') = _
      rw [ih (mPairDirection pc.1 pc.2)]
      simp only [List.map_cons, List.dropLast_cons₂, List.zipWith_cons_cons]

theorem foldl_mStep_events (L : List (MCoord × MCoord)) :
    ∀ acc : MState,
      (L.foldl mStep acc).events = acc.events ++
        List.zipWith (fun (pc : MCoord × MCoord) (sd : JSNum × JSNum) =>
            ({ type := classifyMovement sd.1 sd.2,
               timestamp := pc.2.timestamp } : MovementEvent))
          L ((L.map (fun pc => mPairSpeed pc.1 pc.2)).zip
              (dirChangesFrom acc.prevDirection L)) := by
  induction L with
  | nil => intro acc; simp
  | cons pr rest ih =>
    intro acc
    rw [List.foldl_cons, ih, mStep_events, mStep_prevDirection]
    show _ = acc.events ++
      List.zipWith _ (pr :: rest)
        (((mPairSpeed pr.1 pr.2) :: rest.map (fun pc => mPairSpeed pc.1 pc.2)).zip
          (jsAbs (jsSub (mPairDirection pr.1 pr.2) acc.prevDirection) ::
            dirChangesFrom (mPairDirection pr.1 pr.2) rest))
    rw [List.zip_cons_cons, List.zipWith_cons_cons, List.append_assoc]
    rfl

/-- C7 (amended): `calculateStats` emits exactly one event per consecutive
sample pair — no rising-edge condition and no debounce — and the event's
type is decided by the first matching condition in the priority order
sprint (speed > 5), stop (speed < 0.5), direction change (> 45°),
steady. -/
theorem claim_C7 (cs : List MCoord) (h2 : 2 ≤ cs.length) :
    (calculateStats cs).events =
      List.zipWith (fun (pc : MCoord × MCoord) (sd : JSNum × JSNum) =>
          ({ type := classifyMovement sd.1 sd.2,
             timestamp := pc.2.timestamp } : MovementEvent))
        (adjPairs cs) ((mPairSpeeds cs).zip (mPairDirectionChanges cs)) ∧
    (calculateStats cs).events.length = cs.length - 1 ∧
    (∀ s dc : JSNum,
      (jsGt s (JSNum.fin 5) = true → classifyMovement s dc = MovementType.sprint) ∧
      (jsGt s (JSNum.fin 5) = false → jsLt s (JSNum.fin 0.5) = true →
        classifyMovement s dc = MovementType.stop) ∧
      (jsGt s (JSNum.fin 5) = false → jsLt s (JSNum.fin 0.5) = false →
        jsGt dc (JSNum.fin 45) = true →
        classifyMovement s dc = MovementType.change_direction) ∧
      (jsGt s (JSNum.fin 5) = false → jsLt s (JSNum.fin 0.5) = false →
        jsGt dc (JSNum.fin 45) = false →
        classifyMovement s dc = MovementType.steady)) := by
  have hlen : ¬(cs.length < 2) := by omega
  have hev : (calculateStats cs).events =
      List.zipWith (fun (pc : MCoord × MCoord) (sd : JSNum × JSNum) =>
          ({ type := classifyMovement sd.1 sd.2,
             timestamp := pc.2.timestamp } : MovementEvent))
        (adjPairs cs) ((mPairSpeeds cs).zip (mPairDirectionChanges cs)) := by
    unfold calculateStats
    rw [if_neg hlen]
    dsimp only
    rw [foldl_mStep_events]
    rw [List.nil_append]
    unfold mPairSpeeds mPairDirectionChanges mPairDirections
    rw [dirChangesFrom_eq]
  refine ⟨hev, ?_, ?_⟩
  · rw [hev]
    rw [List.length_zipWith, List.length_zip]
    unfold mPairSpeeds mPairDirectionChanges mPairDirections
    rw [List.length_zipWith, List.length_map, List.length_cons, List.length_dropLast,
        List.length_map, adjPairs_length]
    omega
  · intro s dc
    refine ⟨?_, ?_, ?_, ?_⟩ <;> intros <;> simp_all [classifyMovement]

/-- C7 counterexample: two consecutive pairs 100 ms apart both classified
sprint — the second sprint is emitted with no rising edge (previous speed
already above threshold) and within any 500 ms debounce window of the
first. -/
theorem claim_C7_counterexample :
    (calculateStats c7Coords).events =
      [{ type := MovementType.sprint, timestamp := 100 },
       { type := MovementType.sprint, timestamp := 200 }] ∧
    (200 : ℚ) - 100 < 500 := by
  constructor
  · decide
  · norm_num

theorem claim_C7_witness :
    (calculateStats c7Coords).events.length = c7Coords.length - 1 :=
  (claim_C7 c7Coords (by decide)).2.1

theorem advPlayerSpeeds_eq_spec (playerId : String) (frames : List AdvFrame)
    (pixelsToMeters : ℚ) :
    advPlayerSpeeds playerId frames pixelsToMeters =
      specSpeedSamples playerId frames pixelsToMeters := by
  unfold advPlayerSpeeds specSpeedSamples
  generalize adjPairs (advPlayerFrames playerId frames) = L
  suffices h : ∀ acc : List JSNum,
      L.foldl
        (fun acc pr =>
          match findPlayer playerId pr.1, findPlayer playerId pr.2 with
          | some prevPlayer, some currPlayer =>
            acc ++ [jsMul
              (advCalculateSpeed currPlayer.centerX currPlayer.centerY
                prevPlayer.centerX prevPlayer.centerY
                (pr.2.timestamp - pr.1.timestamp) pixelsToMeters)
              (JSNum.fin 3.6)]
          | _, _ => acc) acc
      = acc ++ L.filterMap
          (fun pr =>
            match findPlayer playerId pr.1, findPlayer playerId pr.2 with
            | some prevPlayer, some currPlayer =>
              some (jsMul
                (advCalculateSpeed currPlayer.centerX currPlayer.centerY
                  prevPlayer.centerX prevPlayer.centerY
                  (pr.2.timestamp - pr.1.timestamp) pixelsToMeters)
                (JSNum.fin 3.6))
            | _, _ => none) by
    simpa using h []
  induction L with
  | nil => intro acc; simp
  | cons pr rest ih =>
    intro acc
    rw [List.foldl_cons, List.filterMap_cons]
    cases h1 : findPlayer playerId pr.1 <;> cases h2 : findPlayer playerId pr.2 <;>
      simp only [h1, h2, ih, List.append_assoc, List.singleton_append]

/-- C8 (amended): in the advanced analysis the per-player `averageSpeed`
is the arithmetic mean of that player's per-consecutive-pair speed
samples (0 when there are none), independently of shot detection; the
basic `generateAnalysisResult` instead returns 0 whenever no frame is
flagged as a shot, and otherwise divides the accumulated speed by the
total frame count. -/
theorem claim_C8 (playerId : String) (frames : List AdvFrame)
    (pixelsToMeters : ℚ) :
    advPlayerSpeeds playerId frames pixelsToMeters =
      specSpeedSamples playerId frames pixelsToMeters ∧
    advAverageSpeed playerId frames pixelsToMeters =
      (if specSpeedSamples playerId frames pixelsToMeters = [] then JSNum.fin 0
       else specArithMean (specSpeedSamples playerId frames pixelsToMeters)) ∧
    (∀ fs : List TrackingFrame,
      generateAnalysisAverageSpeed fs =
        if 0 < (basicAgg fs).shotsHit
        then (basicAgg fs).totalPlayerSpeed / (fs.length : ℚ) else 0) ∧
    (∀ fs : List TrackingFrame, (basicAgg fs).shotsHit = 0 →
      generateAnalysisAverageSpeed fs = 0) := by
  refine ⟨advPlayerSpeeds_eq_spec playerId frames pixelsToMeters, ?_, fun fs => rfl, ?_⟩
  · unfold advAverageSpeed specArithMean
    rw [advPlayerSpeeds_eq_spec]
    dsimp only
    rcases eq_or_ne (specSpeedSamples playerId frames pixelsToMeters) [] with he | he
    · rw [he]
      simp
    · rw [if_neg (by simpa using he), if_neg he]
  · intro fs h
    unfold generateAnalysisAverageSpeed
    dsimp only
    rw [h]
    norm_num

/-- C8 counterexample: two frames with recorded player speed 10 and no
shot — the basic result's `averageSpeed` is 0, not the arithmetic mean 10
of the recorded speed samples, so average speed does depend on shot
detection. -/
theorem claim_C8_counterexample :
    generateAnalysisAverageSpeed [speedOnlyFrame, speedOnlyFrame] = 0 ∧
    specArithMeanQ (specRecordedPlayerSpeeds [speedOnlyFrame, speedOnlyFrame]) = 10 ∧
    (0 : ℚ) ≠ 10 := by
  refine ⟨by decide, ?_, by norm_num⟩
  show ((10 : ℚ) + 10 + 0) / 2 = 10
  norm_num

theorem claim_C8_witness :
    generateAnalysisAverageSpeed [speedOnlyFrame, speedOnlyFrame] = 0 :=
  (claim_C8 "player1" [] 1).2.2.2 [speedOnlyFrame, speedOnlyFrame] (by decide)

theorem listModify_length {α : Type} (f : α → α) (n : ℕ) (l : List α) :
    (listModify f n l).length = l.length := by
  induction l generalizing n with
  | nil => cases n <;> rfl
  | cons a rest ih =>
    cases n with
    | zero => rfl
    | succ m => simp only [listModify, List.length_cons, ih]

theorem map_length_listModify (g : List ℕ → List ℕ)
    (hg : ∀ row, (g row).length = row.length) (n : ℕ) (hm : List (List ℕ)) :
    (listModify g n hm).map List.length = hm.map List.length := by
  induction hm generalizing n with
  | nil => cases n <;> rfl
  | cons row rest ih =>
    cases n with
    | zero => simp only [listModify, List.map_cons, hg]
    | succ m => simp only [listModify, List.map_cons, ih]

theorem heatmapInc_map_length (hm : List (List ℕ)) (gy gx : ℤ) :
    (heatmapInc hm gy gx).map List.length = hm.map List.length := by
  unfold heatmapInc
  split_ifs with h
  · exact map_length_listModify _ (fun row => listModify_length _ _ row) _ hm
  · rfl

theorem generatePositionHeatmap_map_length (frames : List TrackingFrame) (g : ℕ) :
    (generatePositionHeatmap frames g).map List.length = List.replicate g g := by
  unfold generatePositionHeatmap
  suffices h : ∀ hm : List (List ℕ), hm.map List.length = List.replicate g g →
      (frames.foldl
        (fun heatmap frame =>
          match frame.player with
          | some player =>
            let wh := match frame.courtInfo with
              | some ci => (ci.width, ci.height)
              | none => ((1 : ℚ), (1 : ℚ))
            let gridX := min ((g : ℤ) - 1) ⌊player.centerX / wh.1 * g⌋
            let gridY := min ((g : ℤ) - 1) ⌊player.centerY / wh.2 * g⌋
            heatmapInc heatmap gridY gridX
          | none => heatmap) hm).map List.length = List.replicate g g by
    exact h _ (by simp)
  induction frames with
  | nil => exact fun hm h => h
  | cons f rest ih =>
    intro hm h
    rw [List.foldl_cons]
    apply ih
    cases hp : f.player with
    | none => simpa using h
    | some player => simpa [heatmapInc_map_length] using h

theorem coverageRowFold (row : List ℕ) :
    ∀ a b : ℕ,
      row.foldl
        (fun acc2 cell => ((if 0 < cell then acc2.1 + 1 else acc2.1), acc2.2 + 1))
        (a, b)
      = (a + row.countP (fun c => decide (0 < c)), b + row.length) := by
  induction row with
  | nil => intro a b; simp
  | cons c rest ih =>
    intro a b
    rw [List.foldl_cons, ih]
    by_cases hc : 0 < c <;>
      simp only [hc, if_true, if_false, List.countP_cons, List.length_cons,
        decide_eq_true_eq, Prod.mk.injEq] <;>
      constructor <;> omega

theorem coverageCounts (hm : List (List ℕ)) :
    ∀ acc : ℕ × ℕ,
      hm.foldl
        (fun acc row =>
          row.foldl
            (fun acc2 cell => ((if 0 < cell then acc2.1 + 1 else acc2.1), acc2.2 + 1))
            acc)
        acc
      = (acc.1 + specNonzeroCells hm, acc.2 + (hm.map List.length).sum) := by
  induction hm with
  | nil => intro acc; simp [specNonzeroCells]
  | cons row rest ih =>
    intro acc
    rw [List.foldl_cons, coverageRowFold, ih]
    simp only [specNonzeroCells, List.map_cons, List.sum_cons, Prod.mk.injEq]
    constructor <;> omega

/-- C9 (amended): the basic pipeline's court coverage equals the
percentage of heatmap cells with a nonzero count (out of `gridSize²`
cells); the advanced pipeline instead reports the constant 75 regardless
of the frames. -/
theorem claim_C9 (frames : List TrackingFrame) (g : ℕ) (hg : 0 < g) :
    calculateCourtCoverage frames g =
      specCoveragePercent (generatePositionHeatmap frames g) g ∧
    generateAnalysisCourtCoverage frames =
      specCoveragePercent (generatePositionHeatmap frames 10) 10 ∧
    ∀ afs : List AdvFrame, advCourtCoverage afs = 75 := by
  have main : ∀ (fr : List TrackingFrame) (g' : ℕ),
      calculateCourtCoverage fr g' =
        specCoveragePercent (generatePositionHeatmap fr g') g' := by
    intro fr g'
    unfold calculateCourtCoverage specCoveragePercent
    dsimp only
    rw [coverageCounts _ (0, 0), generatePositionHeatmap_map_length]
    simp only [Nat.zero_add, List.sum_replicate, smul_eq_mul]
    push_cast
    ring
  exact ⟨main frames g, main frames 10, fun afs => rfl⟩

/-- C9 counterexample: one advanced frame with one player — the primary
player's heatmap has exactly one nonzero cell (coverage 1%), while the
advanced result reports `courtCoverage = 75`. -/
theorem claim_C9_counterexample :
    advCourtCoverage [c9Frame] = 75 ∧
    specCoveragePercent (advPrimaryHeatmap [c9Frame] 100 100) 10 = 1 ∧
    (75 : ℚ) ≠ 1 := by
  refine ⟨rfl, by decide, by norm_num⟩

theorem claim_C9_witness :
    generateAnalysisCourtCoverage [] =
      specCoveragePercent (generatePositionHeatmap [] 10) 10 :=
  (claim_C9 [] 10 (by norm_num)).2.1

/-! ## ByteTracker lifecycle lemmas -/

theorem ageTrack_track_id (b : ℕ) (tr : Track) :
    (ageTrack b tr).track_id = tr.track_id := rfl

theorem ageTrack_tsu (b : ℕ) (tr : Track) :
    (ageTrack b tr).time_since_update = tr.time_since_update + 1 := rfl

theorem ageTrack_state (b : ℕ) (tr : Track) :
    (ageTrack b tr).state =
      if b < tr.time_since_update + 1 then TrackState.deleted else tr.state := rfl

theorem updateMatchedTrack_track_id (det tr : Track) :
    (updateMatchedTrack det tr).track_id = tr.track_id := by
  unfold updateMatchedTrack
  dsimp only
  split_ifs <;> rfl

theorem updateMatchedTrack_tsu (det tr : Track) :
    (updateMatchedTrack det tr).time_since_update = 0 := by
  unfold updateMatchedTrack
  dsimp only
  split_ifs <;> rfl

theorem updateMatchedTrack_state (det tr : Track) :
    (updateMatchedTrack det tr).state = tr.state ∨
      (updateMatchedTrack det tr).state = TrackState.confirmed := by
  unfold updateMatchedTrack
  dsimp only
  split_ifs
  · exact Or.inr rfl
  · exact Or.inl rfl

theorem map_track_id_age (b : ℕ) (l : List Track) :
    (l.map (ageTrack b)).map (fun tr => tr.track_id) =
      l.map (fun tr => tr.track_id) := by
  rw [List.map_map]
  rfl

theorem set_of_get?_eq {α : Type} (l : List α) (i : ℕ) (a : α)
    (h : l.get? i = some a) : l.set i a = l := by
  induction l generalizing i with
  | nil => rfl
  | cons x xs ih =>
    cases i with
    | zero =>
      rw [List.get?] at h
      cases h
      rfl
    | succ n =>
      rw [List.get?] at h
      show x :: xs.set n a = x :: xs
      rw [ih n h]

theorem applyOneMatch_map_track_id (dets trs : List Track) (m : ℕ × ℕ) :
    (applyOneMatch dets trs m).map (fun tr => tr.track_id) =
      trs.map (fun tr => tr.track_id) := by
  unfold applyOneMatch
  cases hd : dets.get? m.1 with
  | none => rfl
  | some det =>
    cases ht : trs.get? m.2 with
    | none => rfl
    | some tr =>
      rw [List.map_set, updateMatchedTrack_track_id]
      apply set_of_get?_eq
      rw [List.get?_map, ht]
      rfl

theorem applyMatches_map_track_id (dets : List Track) (ms : List (ℕ × ℕ)) :
    ∀ trs : List Track,
      (applyMatches dets trs ms).map (fun tr => tr.track_id) =
        trs.map (fun tr => tr.track_id) := by
  induction ms with
  | nil => intro trs; rfl
  | cons m rest ih =>
    intro trs
    show (applyMatches dets (applyOneMatch dets trs m) rest).map _ = _
    rw [ih, applyOneMatch_map_track_id]

theorem applyOneMatch_get?_ne (dets trs : List Track) (m : ℕ × ℕ) (i : ℕ)
    (h : m.2 ≠ i) : (applyOneMatch dets trs m).get? i = trs.get? i := by
  unfold applyOneMatch
  cases hd : dets.get? m.1 with
  | none => rfl
  | some det =>
    cases ht : trs.get? m.2 with
    | none => rfl
    | some tr => exact List.get?_set_ne _ _ h

theorem applyMatches_get?_ne (dets : List Track) (ms : List (ℕ × ℕ)) :
    ∀ (trs : List Track) (i : ℕ), (∀ m ∈ ms, m.2 ≠ i) →
      (applyMatches dets trs ms).get? i = trs.get? i := by
  induction ms with
  | nil => intro trs i _; rfl
  | cons m rest ih =>
    intro trs i h
    show (applyMatches dets (applyOneMatch dets trs m) rest).get? i = _
    rw [ih _ i (fun m' hm' => h m' (List.mem_cons_of_mem _ hm')),
        applyOneMatch_get?_ne _ _ _ _ (h m (List.mem_cons_self _ _))]

theorem applyMatches_get?_spec (dets : List Track) (ms : List (ℕ × ℕ)) :
    ∀ (trs : List Track) (i : ℕ) (tr' : Track),
      (applyMatches dets trs ms).get? i = some tr' →
      ∃ tr0, trs.get? i = some tr0 ∧ tr'.track_id = tr0.track_id ∧
        (tr' = tr0 ∨ (tr'.time_since_update = 0 ∧
          (tr'.state = tr0.state ∨ tr'.state = TrackState.confirmed))) := by
  induction ms with
  | nil =>
    intro trs i tr' h
    exact ⟨tr', h, rfl, Or.inl rfl⟩
  | cons m rest ih =>
    intro trs i tr' h
    obtain ⟨tr1, h1, hid1, hst1⟩ := ih (applyOneMatch dets trs m) i tr' h
    unfold applyOneMatch at h1
    cases hd : dets.get? m.1 with
    | none => rw [hd] at h1; exact ⟨tr1, h1, hid1, hst1⟩
    | some det =>
      rw [hd] at h1
      cases ht : trs.get? m.2 with
      | none => rw [ht] at h1; exact ⟨tr1, h1, hid1, hst1⟩
      | some tr =>
        rw [ht] at h1
        by_cases him : m.2 = i
        · subst him
          have hlt : m.2 < trs.length := by
            rcases List.get?_eq_some.mp ht with ⟨hl, _⟩
            exact hl
          rw [List.get?_set_eq_of_lt _ (by simpa using hlt)] at h1
          cases h1
          refine ⟨tr, ht, ?_, ?_⟩
          · rw [hid1, updateMatchedTrack_track_id]
          · rcases hst1 with rfl | ⟨htsu, hst⟩
            · exact Or.inr ⟨updateMatchedTrack_tsu det tr, updateMatchedTrack_state det tr⟩
            · refine Or.inr ⟨htsu, ?_⟩
              rcases hst with hst | hst
              · rw [hst]
                exact updateMatchedTrack_state det tr
              · exact Or.inr hst
        · rw [List.get?_set_ne _ _ him] at h1
          exact ⟨tr1, h1, hid1, hst1⟩

theorem createNewTracks_foldl (opts : TrackOptions) (dets : List Track) :
    ∀ (unmatched : List ℕ) (acc : List Track) (c : ℕ),
      unmatched.foldl
        (fun acc idx =>
          match dets.get? idx with
          | some det =>
            if opts.track_thresh ≤ det.confidence then
              (acc.1 ++ [mkNewTrack det (acc.2 + 1)], acc.2 + 1)
            else acc
          | none => acc)
        (acc, c)
      = (acc ++ mkNewTracksFrom c (newDetections opts dets unmatched),
         c + (newDetections opts dets unmatched).length) := by
  intro unmatched
  induction unmatched with
  | nil => intro acc c; simp [newDetections, mkNewTracksFrom]
  | cons idx rest ih =>
    intro acc c
    rw [List.foldl_cons]
    cases hd : dets.get? idx with
    | none =>
      have hd2 : dets[idx]? = none := by rw [← List.get?_eq_getElem?]; exact hd
      simp only [hd]
      rw [ih]
      simp [newDetections, List.filterMap_cons, hd2]
    | some det =>
      have hd2 : dets[idx]? = some det := by rw [← List.get?_eq_getElem?]; exact hd
      by_cases hc : opts.track_thresh ≤ det.confidence
      · simp only [hd, if_pos hc]
        rw [ih]
        have hnd : newDetections opts dets (idx :: rest) =
            det :: newDetections opts dets rest := by
          simp [newDetections, List.filterMap_cons, hd2, List.filter_cons, hc]
        rw [hnd]
        simp only [mkNewTracksFrom, List.length_cons, Prod.mk.injEq]
        constructor
        · rw [List.append_assoc]
          rfl
        · omega
      · simp only [hd, if_neg hc]
        rw [ih]
        simp [newDetections, List.filterMap_cons, hd2, List.filter_cons, hc]

theorem createNewTracks_eq (opts : TrackOptions) (dets : List Track)
    (unmatched : List ℕ) (c : ℕ) :
    createNewTracks opts dets unmatched c =
      (mkNewTracksFrom c (newDetections opts dets unmatched),
       c + (newDetections opts dets unmatched).length) := by
  unfold createNewTracks
  rw [createNewTracks_foldl]
  rw [List.nil_append]

theorem mkNewTracksFrom_map_track_id :
    ∀ (l : List Track) (c : ℕ),
      (mkNewTracksFrom c l).map (fun tr => tr.track_id) =
        List.range' (c + 1) l.length := by
  intro l
  induction l with
  | nil => intro c; rfl
  | cons det rest ih =>
    intro c
    show (c + 1) :: (mkNewTracksFrom (c + 1) rest).map (fun tr => tr.track_id) = _
    rw [ih, List.length_cons, List.range'_succ]

theorem mkNewTracksFrom_mem :
    ∀ (l : List Track) (c : ℕ) (tr : Track), tr ∈ mkNewTracksFrom c l →
      tr.age = 1 ∧ tr.hits = 1 ∧ tr.time_since_update = 0 ∧
      tr.state = TrackState.tentative ∧ c < tr.track_id ∧
      tr.track_id ≤ c + l.length := by
  intro l
  induction l with
  | nil => intro c tr h; cases h
  | cons det rest ih =>
    intro c tr h
    rcases List.mem_cons.mp h with rfl | h
    · exact ⟨rfl, rfl, rfl, rfl, Nat.lt_succ_self c,
        by show c + 1 ≤ c + (det :: rest).length; simp⟩
    · obtain ⟨h1, h2, h3, h4, h5, h6⟩ := ih (c + 1) tr h
      exact ⟨h1, h2, h3, h4, by omega, by simp only [List.length_cons]; omega⟩

theorem mkNewTracksFrom_filter_not_deleted (l : List Track) (c : ℕ) :
    (mkNewTracksFrom c l).filter
      (fun tr => decide (tr.state ≠ TrackState.deleted)) = mkNewTracksFrom c l := by
  apply List.filter_eq_self.mpr
  intro tr htr
  obtain ⟨_, _, _, h4, _, _⟩ := mkNewTracksFrom_mem l c tr htr
  simp [h4]

theorem update_decomp (opts : TrackOptions) (st : TrackerState) (dets : List Track) :
    (update opts st dets).1.tracks =
      (applyMatches dets (st.tracks.map (ageTrack opts.track_buffer))
          (mrOf opts st dets).matchPairs).filter
        (fun tr => decide (tr.state ≠ TrackState.deleted))
      ++ mkNewTracksFrom st.track_id_count
          (newDetections opts dets (mrOf opts st dets).unmatchedDetections) ∧
    (update opts st dets).1.track_id_count =
      st.track_id_count +
        (newDetections opts dets (mrOf opts st dets).unmatchedDetections).length ∧
    (update opts st dets).2 =
      (update opts st dets).1.tracks.filter
        (fun tr => decide (tr.state = TrackState.confirmed ∨
                           tr.state = TrackState.tentative)) := by
  unfold update
  dsimp only
  rw [createNewTracks_eq]
  dsimp only
  rw [List.filter_append, mkNewTracksFrom_filter_not_deleted]
  exact ⟨rfl, rfl, rfl⟩

/-- C3: the tracks created by one `update` call are exactly one fresh
track per unmatched detection whose confidence reaches `track_thresh`
(below-threshold detections create nothing), appended after the surviving
updated tracks; each created track has `age = 1`, `hits = 1`,
`time_since_update = 0`, `state = tentative`, and the freshly allocated
ids are the consecutive, strictly increasing range starting right after
the previous id counter.  The default `track_thresh` is 0.5. -/
theorem claim_C3 (opts : TrackOptions) (st : TrackerState) (dets : List Track) :
    (createNewTracks opts dets (mrOf opts st dets).unmatchedDetections
        st.track_id_count).1
      = mkNewTracksFrom st.track_id_count
          (newDetections opts dets (mrOf opts st dets).unmatchedDetections) ∧
    (update opts st dets).1.tracks =
      (applyMatches dets (st.tracks.map (ageTrack opts.track_buffer))
          (mrOf opts st dets).matchPairs).filter
        (fun tr => decide (tr.state ≠ TrackState.deleted))
      ++ mkNewTracksFrom st.track_id_count
          (newDetections opts dets (mrOf opts st dets).unmatchedDetections) ∧
    (∀ (c : ℕ) (l : List Track),
      (mkNewTracksFrom c l).map (fun tr => tr.track_id) =
        List.range' (c + 1) l.length) ∧
    (∀ (c : ℕ) (l : List Track), ∀ tr ∈ mkNewTracksFrom c l,
      tr.age = 1 ∧ tr.hits = 1 ∧ tr.time_since_update = 0 ∧
      tr.state = TrackState.tentative ∧ c < tr.track_id) ∧
    defaultOptions.track_thresh = 1 / 2 := by
  refine ⟨?_, (update_decomp opts st dets).1, ?_, ?_, ?_⟩
  · rw [createNewTracks_eq]
  · intro c l
    exact mkNewTracksFrom_map_track_id l c
  · intro c l tr htr
    obtain ⟨h1, h2, h3, h4, h5, _⟩ := mkNewTracksFrom_mem l c tr htr
    exact ⟨h1, h2, h3, h4, h5⟩
  · norm_num [defaultOptions, mkTrackOptions]

theorem claim_C3_witness :
    (createNewTracks defaultOptions [detA]
        (mrOf defaultOptions initialState [detA]).unmatchedDetections
        initialState.track_id_count).1
      = mkNewTracksFrom initialState.track_id_count
          (newDetections defaultOptions [detA]
            (mrOf defaultOptions initialState [detA]).unmatchedDetections) :=
  (claim_C3 defaultOptions initialState [detA]).1

theorem survivors_ids_sublist (opts : TrackOptions) (st : TrackerState)
    (dets : List Track) :
    List.Sublist
      (((applyMatches dets (st.tracks.map (ageTrack opts.track_buffer))
            (mrOf opts st dets).matchPairs).filter
          (fun tr => decide (tr.state ≠ TrackState.deleted))).map
        (fun tr => tr.track_id))
      (st.tracks.map (fun tr => tr.track_id)) := by
  have h3 := (@List.filter_sublist Track
      (fun tr => decide (tr.state ≠ TrackState.deleted))
      (applyMatches dets (st.tracks.map (ageTrack opts.track_buffer))
        (mrOf opts st dets).matchPairs)).map
    (fun tr => tr.track_id)
  rwa [applyMatches_map_track_id, map_track_id_age] at h3

theorem survivor_mem_ids (opts : TrackOptions) (st : TrackerState)
    (dets : List Track) (tr' : Track)
    (h : tr' ∈ (applyMatches dets (st.tracks.map (ageTrack opts.track_buffer))
          (mrOf opts st dets).matchPairs).filter
        (fun tr => decide (tr.state ≠ TrackState.deleted))) :
    ∃ trS ∈ st.tracks, trS.track_id = tr'.track_id := by
  have h1 : tr'.track_id ∈ st.tracks.map (fun tr => tr.track_id) :=
    (survivors_ids_sublist opts st dets).subset (List.mem_map_of_mem _ h)
  obtain ⟨trS, hmem, heq⟩ := List.mem_map.mp h1
  exact ⟨trS, hmem, heq⟩

theorem inv_update (opts : TrackOptions) (st : TrackerState) (dets : List Track)
    (hInv : Inv opts st) : Inv opts (update opts st dets).1 := by
  obtain ⟨hnd, hbound, hdel, htsu⟩ := hInv
  obtain ⟨hdec, hcount, -⟩ := update_decomp opts st dets
  refine ⟨?_, ?_, ?_, ?_⟩
  · rw [hdec, List.map_append]
    rw [List.nodup_append]
    refine ⟨(survivors_ids_sublist opts st dets).nodup hnd, ?_, ?_⟩
    · rw [mkNewTracksFrom_map_track_id]
      exact List.nodup_range' _ _
    · intro a haF haN
      rw [mkNewTracksFrom_map_track_id, List.mem_range'_1] at haN
      have haS : a ∈ st.tracks.map (fun tr => tr.track_id) :=
        (survivors_ids_sublist opts st dets).subset haF
      obtain ⟨trS, hmem, heq⟩ := List.mem_map.mp haS
      have := hbound trS hmem
      omega
  · intro tr htr
    rw [hdec] at htr
    rw [hcount]
    rcases List.mem_append.mp htr with hF | hN
    · obtain ⟨trS, hmem, heq⟩ := survivor_mem_ids opts st dets tr hF
      have := hbound trS hmem
      omega
    · have := (mkNewTracksFrom_mem _ _ tr hN).2.2.2.2.2
      omega
  · intro tr htr
    rw [hdec] at htr
    rcases List.mem_append.mp htr with hF | hN
    · have := (List.mem_filter.mp hF).2
      simpa using this
    · rw [(mkNewTracksFrom_mem _ _ tr hN).2.2.2.1]
      simp
  · intro tr htr
    rw [hdec] at htr
    rcases List.mem_append.mp htr with hF | hN
    · obtain ⟨hmemA, hkeep⟩ := List.mem_filter.mp hF
      have hnotdel : tr.state ≠ TrackState.deleted := by simpa using hkeep
      obtain ⟨i, hi⟩ := List.mem_iff_get?.mp hmemA
      obtain ⟨tr0, htr0, -, hst⟩ :=
        applyMatches_get?_spec dets (mrOf opts st dets).matchPairs _ i tr hi
      rw [List.get?_map] at htr0
      cases hS : st.tracks.get? i with
      | none => rw [hS] at htr0; cases htr0
      | some trS =>
        rw [hS] at htr0
        have htr0' : tr0 = ageTrack opts.track_buffer trS := by
          injection htr0 with h
          exact h.symm
        subst htr0'
        rcases hst with rfl | ⟨htsu0, -⟩
        · rw [ageTrack_tsu]
          rw [ageTrack_state] at hnotdel
          by_cases hb : opts.track_buffer < trS.time_since_update + 1
          · rw [if_pos hb] at hnotdel
            exact absurd rfl hnotdel
          · omega
        · omega
    · rw [(mkNewTracksFrom_mem _ _ tr hN).2.2.1]
      omega

theorem inv_initialState (opts : TrackOptions) : Inv opts initialState := by
  refine ⟨List.nodup_nil, ?_, ?_, ?_⟩ <;> intro tr htr <;> cases htr

theorem update_confirmed_persist (opts : TrackOptions) (st : TrackerState)
    (dets : List Track) (hInv : Inv opts st) :
    ∀ tr ∈ st.tracks, tr.state = TrackState.confirmed →
      ∀ tr' ∈ (update opts st dets).1.tracks, tr'.track_id = tr.track_id →
        tr'.state = TrackState.confirmed := by
  obtain ⟨hnd, hbound, hdel, htsu⟩ := hInv
  obtain ⟨hdec, -, -⟩ := update_decomp opts st dets
  intro tr htr hconf tr' htr' hid
  rw [hdec] at htr'
  rcases List.mem_append.mp htr' with hF | hN
  · obtain ⟨hmemA, hkeep⟩ := List.mem_filter.mp hF
    have hnotdel : tr'.state ≠ TrackState.deleted := by simpa using hkeep
    obtain ⟨i, hi⟩ := List.mem_iff_get?.mp hmemA
    obtain ⟨tr0, htr0, hid0, hst⟩ :=
      applyMatches_get?_spec dets (mrOf opts st dets).matchPairs _ i tr' hi
    rw [List.get?_map] at htr0
    cases hS : st.tracks.get? i with
    | none => rw [hS] at htr0; cases htr0
    | some trS =>
      rw [hS] at htr0
      have htr0' : tr0 = ageTrack opts.track_buffer trS := by
        injection htr0 with h
        exact h.symm
      subst htr0'
      have hidS : trS.track_id = tr.track_id := by
        rw [ageTrack_track_id] at hid0
        rw [← hid0, hid]
      have htrSmem : trS ∈ st.tracks := List.get?_mem hS
      have hSeq : trS = tr :=
        List.inj_on_of_nodup_map hnd htrSmem htr hidS
      subst hSeq
      rcases hst with rfl | ⟨-, hst2⟩
      · rw [ageTrack_state]
        by_cases hb : opts.track_buffer < trS.time_since_update + 1
        · exfalso
          apply hnotdel
          rw [ageTrack_state, if_pos hb]
        · rw [if_neg hb]
          exact hconf
      · rcases hst2 with hst2 | hst2
        · rw [hst2, ageTrack_state]
          by_cases hb : opts.track_buffer < trS.time_since_update + 1
          · exfalso
            apply hnotdel
            rw [hst2, ageTrack_state, if_pos hb]
          · rw [if_neg hb]
            exact hconf
        · exact hst2
  · have h5 := (mkNewTracksFrom_mem _ _ tr' hN).2.2.2.2.1
    have := hbound tr htr
    omega

/-- C1 (amended): from any state satisfying the tracker invariant (which
the initial state does), one `update` call preserves the invariant — in
particular neither the stored nor the returned track list ever contains a
deleted track across call boundaries — and a confirmed track never
reverts to tentative.  (The original claim's "never deleted→confirmed" is
false: a track marked deleted by aging can be revived to confirmed within
the same call when a detection matches it, see the counterexample.) -/
theorem claim_C1 (opts : TrackOptions) (st : TrackerState) (dets : List Track)
    (hInv : Inv opts st) :
    Inv opts (update opts st dets).1 ∧
    (∀ tr ∈ (update opts st dets).2, tr.state ≠ TrackState.deleted) ∧
    (∀ tr ∈ (update opts st dets).1.tracks, tr.state ≠ TrackState.deleted) ∧
    (∀ tr ∈ st.tracks, tr.state = TrackState.confirmed →
      ∀ tr' ∈ (update opts st dets).1.tracks, tr'.track_id = tr.track_id →
        tr'.state = TrackState.confirmed) ∧
    Inv opts initialState := by
  have hpost := inv_update opts st dets hInv
  refine ⟨hpost, ?_, hpost.2.2.1, update_confirmed_persist opts st dets hInv,
    inv_initialState opts⟩
  intro tr htr
  obtain ⟨-, -, hret⟩ := update_decomp opts st dets
  rw [hret] at htr
  exact hpost.2.2.1 tr (List.mem_filter.mp htr).1

/-- C1 counterexample: after a track is confirmed and then unmatched for
exactly `track_buffer` frames, one more `update` call with a matching
detection first marks it `deleted` in the aging step and then revives the
same track to `confirmed` — a deleted→confirmed transition, and the track
outlives its deletion. -/
theorem claim_C1_counterexample :
    ((c1State.tracks.map (ageTrack defaultOptions.track_buffer)).map
        (fun tr => (tr.track_id, tr.state))) = [(1, TrackState.deleted)] ∧
    ((update defaultOptions c1State [detA]).1.tracks.map
        (fun tr => (tr.track_id, tr.state))) = [(1, TrackState.confirmed)] ∧
    ((update defaultOptions c1State [detA]).2.map
        (fun tr => (tr.track_id, tr.state))) = [(1, TrackState.confirmed)] := by
  decide

theorem claim_C1_witness :
    Inv defaultOptions (update defaultOptions initialState [detA]).1 :=
  (claim_C1 defaultOptions initialState [detA] (inv_initialState defaultOptions)).1

theorem absent_step (opts : TrackOptions) (st : TrackerState) (ds : List Track)
    (j : ℕ) (hj : j ≤ st.track_id_count)
    (habs : ∀ tr ∈ st.tracks, tr.track_id ≠ j) :
    (∀ tr ∈ (update opts st ds).1.tracks, tr.track_id ≠ j) ∧
    (∀ tr ∈ (update opts st ds).2, tr.track_id ≠ j) ∧
    j ≤ (update opts st ds).1.track_id_count := by
  obtain ⟨hdec, hcount, hret⟩ := update_decomp opts st ds
  have habs2 : ∀ tr ∈ (update opts st ds).1.tracks, tr.track_id ≠ j := by
    intro tr htr
    rw [hdec] at htr
    rcases List.mem_append.mp htr with hF | hN
    · obtain ⟨trS, hmemS, heq⟩ := survivor_mem_ids opts st ds tr hF
      rw [← heq]
      exact habs trS hmemS
    · have := (mkNewTracksFrom_mem _ _ tr hN).2.2.2.2.1
      omega
  refine ⟨habs2, ?_, by rw [hcount]; omega⟩
  intro tr htr
  rw [hret] at htr
  exact habs2 tr (List.mem_filter.mp htr).1

theorem absent_run (opts : TrackOptions) (j : ℕ) :
    ∀ (dss : List (List Track)) (st : TrackerState),
      j ≤ st.track_id_count → (∀ tr ∈ st.tracks, tr.track_id ≠ j) →
      (∀ tr ∈ (runUpdates opts st dss).tracks, tr.track_id ≠ j) ∧
      j ≤ (runUpdates opts st dss).track_id_count ∧
      neverReturnsB opts st dss j = true := by
  intro dss
  induction dss with
  | nil => exact fun st hj habs => ⟨habs, hj, rfl⟩
  | cons ds rest ih =>
    intro st hj habs
    obtain ⟨h1, h2, h3⟩ := absent_step opts st ds j hj habs
    obtain ⟨h4, h5, h6⟩ := ih (update opts st ds).1 h3 h1
    refine ⟨h4, h5, ?_⟩
    show ((update opts st ds).2.all (fun tr => !(tr.track_id == j)) &&
      neverReturnsB opts (update opts st ds).1 rest j) = true
    rw [Bool.and_eq_true]
    refine ⟨?_, h6⟩
    rw [List.all_eq_true]
    intro tr htr
    simpa using h2 tr htr

theorem unmatched_no_idx (opts : TrackOptions) (st : TrackerState)
    (ds : List Track) (j k : ℕ) (trk : Track)
    (hk : st.tracks.get? k = some trk) (hid : trk.track_id = j)
    (hj : j ∉ matchedTrackIds opts st ds) :
    ∀ m ∈ (mrOf opts st ds).matchPairs, m.2 ≠ k := by
  intro m hm hmk
  apply hj
  unfold matchedTrackIds matchedTrackIdxs
  apply List.mem_filterMap.mpr
  refine ⟨k, List.mem_map.mpr ⟨m, hm, hmk⟩, ?_⟩
  rw [hk]
  simp [hid]

theorem unmatched_step (opts : TrackOptions) (st : TrackerState) (ds : List Track)
    (j : ℕ) (trk : Track) (hInv : Inv opts st)
    (hmem : trk ∈ st.tracks) (hid : trk.track_id = j)
    (hj : j ∉ matchedTrackIds opts st ds) :
    (opts.track_buffer < trk.time_since_update + 1 →
      ∀ tr ∈ (update opts st ds).1.tracks, tr.track_id ≠ j) ∧
    (trk.time_since_update + 1 ≤ opts.track_buffer →
      ∃ trk' ∈ (update opts st ds).1.tracks, trk'.track_id = j ∧
        trk'.time_since_update = trk.time_since_update + 1) := by
  obtain ⟨hnd, hbound, hdel, htsu⟩ := hInv
  obtain ⟨hdec, hcount, -⟩ := update_decomp opts st ds
  obtain ⟨k, hk⟩ := List.mem_iff_get?.mp hmem
  have hnoidx := unmatched_no_idx opts st ds j k trk hk hid hj
  have hAk : (applyMatches ds (st.tracks.map (ageTrack opts.track_buffer))
      (mrOf opts st ds).matchPairs).get? k
      = some (ageTrack opts.track_buffer trk) := by
    rw [applyMatches_get?_ne _ _ _ _ hnoidx, List.get?_map, hk]
    rfl
  constructor
  · intro hb tr htr hidtr
    rw [hdec] at htr
    rcases List.mem_append.mp htr with hF | hN
    · obtain ⟨hmemA, hkeep⟩ := List.mem_filter.mp hF
      have hnotdel : tr.state ≠ TrackState.deleted := by simpa using hkeep
      obtain ⟨i, hi⟩ := List.mem_iff_get?.mp hmemA
      by_cases hik : i = k
      · subst hik
        rw [hAk] at hi
        injection hi with hi
        apply hnotdel
        rw [← hi, ageTrack_state, if_pos hb]
      · obtain ⟨tr0, htr0, hid0, -⟩ :=
          applyMatches_get?_spec ds (mrOf opts st ds).matchPairs _ i tr hi
        rw [List.get?_map] at htr0
        cases hS : st.tracks.get? i with
        | none => rw [hS] at htr0; cases htr0
        | some trS =>
          rw [hS] at htr0
          injection htr0 with htr0
          have hidS : trS.track_id = j := by
            rw [← hidtr, hid0, ← htr0, ageTrack_track_id]
          have hgi : (st.tracks.map (fun tr => tr.track_id)).get? i = some j := by
            rw [List.get?_map, hS]
            simp [hidS]
          have hgk : (st.tracks.map (fun tr => tr.track_id)).get? k = some j := by
            rw [List.get?_map, hk]
            simp [hid]
          rcases List.get?_eq_some.mp hgi with ⟨hilt, -⟩
          exact hik (List.get?_inj hilt hnd (hgi.trans hgk.symm))
    · have := (mkNewTracksFrom_mem _ _ tr hN).2.2.2.2.1
      have hjb : j ≤ st.track_id_count := hid ▸ hbound trk hmem
      omega
  · intro hb
    refine ⟨ageTrack opts.track_buffer trk, ?_, ?_, ageTrack_tsu _ _⟩
    · rw [hdec]
      apply List.mem_append.mpr
      apply Or.inl
      apply List.mem_filter.mpr
      refine ⟨List.get?_mem hAk, ?_⟩
      rw [ageTrack_state, if_neg (by omega)]
      simpa using hdel trk hmem
    · rw [ageTrack_track_id]
      exact hid

theorem inv_runUpdates (opts : TrackOptions) :
    ∀ (dss : List (List Track)) (st : TrackerState),
      Inv opts st → Inv opts (runUpdates opts st dss) := by
  intro dss
  induction dss with
  | nil => exact fun st h => h
  | cons ds rest ih => exact fun st h => ih _ (inv_update opts st ds h)

theorem streak_deletes (opts : TrackOptions) (j : ℕ) :
    ∀ (dss : List (List Track)) (st : TrackerState) (trk : Track),
      Inv opts st → trk ∈ st.tracks → trk.track_id = j →
      unmatchedDuringB opts st dss j = true →
      opts.track_buffer < trk.time_since_update + dss.length →
      (∀ tr ∈ (runUpdates opts st dss).tracks, tr.track_id ≠ j) ∧
      j ≤ (runUpdates opts st dss).track_id_count := by
  intro dss
  induction dss with
  | nil =>
    intro st trk hInv hmem hid hunm hbuf
    simp only [List.length_nil] at hbuf
    exact absurd hbuf (by have := hInv.2.2.2 trk hmem; omega)
  | cons ds rest ih =>
    intro st trk hInv hmem hid hunm hbuf
    have hsplit : (!(matchedTrackIds opts st ds).contains j &&
        unmatchedDuringB opts (update opts st ds).1 rest j) = true := hunm
    rw [Bool.and_eq_true] at hsplit
    obtain ⟨hA, hB⟩ := hsplit
    have hA2 : j ∉ matchedTrackIds opts st ds := by simpa using hA
    have hstep := unmatched_step opts st ds j trk hInv hmem hid hA2
    by_cases hb : opts.track_buffer < trk.time_since_update + 1
    · have habs := hstep.1 hb
      have hjc : j ≤ (update opts st ds).1.track_id_count := by
        obtain ⟨-, hcount, -⟩ := update_decomp opts st ds
        have : j ≤ st.track_id_count := hid ▸ hInv.2.1 trk hmem
        omega
      obtain ⟨h1, h2, -⟩ := absent_run opts j rest (update opts st ds).1 hjc habs
      exact ⟨h1, h2⟩
    · obtain ⟨trk', hmem', hid', htsu'⟩ := hstep.2 (by omega)
      apply ih (update opts st ds).1 trk' (inv_update opts st ds hInv) hmem' hid' hB
      rw [htsu']
      simp only [List.length_cons] at hbuf
      omega

/-- C2: a track that is matched by no detection for more than
`track_buffer` consecutive `update` calls is purged: it is absent from
the tracker state after those calls (hence from every returned list), and
no later `update` call ever returns a track with its id again — ids are
never reused. -/
theorem claim_C2 (opts : TrackOptions) (detss0 streak : List (List Track))
    (j : ℕ) (hbuf : opts.track_buffer < streak.length)
    (hmem : ∃ tr ∈ (runUpdates opts initialState detss0).tracks, tr.track_id = j)
    (hunm : unmatchedDuringB opts (runUpdates opts initialState detss0) streak j
      = true) :
    (∀ tr ∈ (runUpdates opts (runUpdates opts initialState detss0) streak).tracks,
      tr.track_id ≠ j) ∧
    ∀ rest, neverReturnsB opts
      (runUpdates opts (runUpdates opts initialState detss0) streak) rest j
      = true := by
  obtain ⟨trk, htrk, hid⟩ := hmem
  have hInv0 : Inv opts (runUpdates opts initialState detss0) :=
    inv_runUpdates opts detss0 initialState (inv_initialState opts)
  have h := streak_deletes opts j streak _ trk hInv0 htrk hid hunm (by omega)
  exact ⟨h.1, fun rest => (absent_run opts j rest _ h.2 h.1).2.2⟩

theorem claim_C2_witness :
    neverReturnsB opts1
      (runUpdates opts1 (runUpdates opts1 initialState [[detA]]) [[], []])
      [[detA]] 1 = true :=
  (claim_C2 opts1 [[detA]] [[], []] 1 (by decide) (by decide) (by decide)).2 [[detA]]

end AEye
